import Mathlib

/-!
Verification development for the xcomponent cross-origin component runtime
(`dist/xcomponent.frame.js`, `src/component/window.js`).

The JavaScript source is shallowly embedded: JS objects with string keys
become association lists (insertion-ordered, like JS object keys), the
per-window weak maps become association lists keyed by an abstract window
identity, thrown exceptions become `Except`/`Option`, and the external
regular-expression engine is represented by the match function the regex
denotes together with its `toString` rendering.
-/

set_option autoImplicit false

namespace XComp

/-! ## JS object / association-list primitives

JS objects keep keys in insertion order: assigning a fresh key appends it,
assigning an existing key overwrites in place, `delete` removes it. -/

/-- First value bound to `k`, like `obj[k]` (`undefined` ↦ `none`). -/
def objGet {κ ν : Type} [BEq κ] (l : List (κ × ν)) (k : κ) : Option ν :=
  match l with
  | [] => none
  | (k', v) :: rest => if k' == k then some v else objGet rest k

/-- `obj[k] = v`: overwrite the first binding of `k` in place, else append. -/
def objSet {κ ν : Type} [BEq κ] (l : List (κ × ν)) (k : κ) (v : ν) : List (κ × ν) :=
  match l with
  | [] => [(k, v)]
  | (k', v') :: rest => if k' == k then (k, v) :: rest else (k', v') :: objSet rest k v

/-- `delete obj[k]`: remove the first binding of `k`. -/
def objDelete {κ ν : Type} [BEq κ] (l : List (κ × ν)) (k : κ) : List (κ × ν) :=
  match l with
  | [] => []
  | (k', v') :: rest => if k' == k then rest else (k', v') :: objDelete rest k

/-! ## Domain patterns and `matchDomain`

`matchDomain(pattern, origin)` from the window-identity utilities
(`dist/xcomponent.frame.js`, cross-domain-utils module). A pattern is an
exact origin string, a regular expression, or an array of patterns. A
regular expression is embedded as its `toString` rendering together with
the match predicate the external regex engine gives it (`origin.match(re)`
tested for truthiness). -/

inductive DomainPattern where
  | str (s : String)
  | regex (source : String) (test : String → Bool)
  | list (l : List DomainPattern)

/-- The wildcard origin pattern (`CONSTANTS.WILDCARD`). -/
def WILDCARD : String := "*"

/-- Models `JSON.stringify` on domain patterns: strings are quoted, a RegExp
serializes as the empty object `\x7b\x7d`, arrays by element (string escaping
inside quoted strings is not modelled; no claim depends on it). -/
def jsonStringifyPattern : DomainPattern → String
  | .str s => "\"" ++ s ++ "\""
  | .regex _ _ => "\x7b\x7d"
  | .list l => "[" ++ String.intercalate "," (l.attach.map (fun p => jsonStringifyPattern p.1)) ++ "]"
decreasing_by
  simp_wf
  have := List.sizeOf_lt_of_mem p.2
  omega

/-- `matchDomain(pattern, origin)`, translated branch for branch:
string-vs-string is wildcard or equality; a string pattern never matches a
regex or array origin; a regex pattern against a regex origin compares
`toString` renderings, against a string origin applies the regex engine,
against an array is false; an array pattern against an array origin compares
`JSON.stringify` renderings, against a string origin succeeds iff some
element matches, against a regex origin is false. -/
def matchDomain : DomainPattern → DomainPattern → Bool
  | .str p, .str o => p == WILDCARD || o == p
  | .str _, .regex _ _ => false
  | .str _, .list _ => false
  | .regex ps _, .regex os _ => ps == os
  | .regex _ t, .str o => t o
  | .regex _ _, .list _ => false
  | .list ps, .list os => jsonStringifyPattern (.list ps) == jsonStringifyPattern (.list os)
  | .list ps, .str o => ps.attach.any (fun p => matchDomain p.1 (.str o))
  | .list _, .regex _ _ => false
termination_by p _ => sizeOf p
decreasing_by
  simp_wf
  have := List.sizeOf_lt_of_mem p.2
  omega

/-! ## `isWindowClosed`

Each field of `WinHandle` models one property access the source performs on
a window handle; a cross-origin access can throw, carrying an error whose
`message` may be absent (a falsy thrown value is `.throw none`). -/

inductive ReadResult (α : Type) where
  | ok (value : α)
  | thrown (message : Option String)
deriving Repr

/-- The benign cross-origin rejection `isWindowClosed` tolerates. -/
def BENIGN_REJECTION : String := "Call was rejected by callee.\r\n"

structure WinHandle where
  /-- `win === window` (comparison with the current window). -/
  isCurrentWindow : Bool
  /-- reading `win.closed`. -/
  closed : ReadResult Bool
  /-- `isSameDomain(win)` (total: catches internally). -/
  sameDomain : Bool
  /-- reading `win.mockclosed`. -/
  mockclosed : ReadResult Bool
  /-- reading `win.parent`, tested for truthiness. -/
  parentTruthy : ReadResult Bool
  /-- reading `win.top`, tested for truthiness. -/
  topTruthy : ReadResult Bool

/-- `isWindowClosed(win, allowMock = true)` translated clause for clause; the
window argument is `none` for a null/undefined handle. -/
def isWindowClosed (win : Option WinHandle) (allowMock : Bool := true) : Bool :=
  -- try { if (win === window) return false; }
  if (match win with | some w => w.isCurrentWindow | none => false) then false
  else
    match win with
    | none => true        -- try { if (!win) return true; }
    | some w =>
      match w.closed with
      | .thrown err =>
        -- return !err || "Call was rejected by callee.\r\n" !== err.message
        (match err with
         | none => true
         | some msg => msg != BENIGN_REJECTION)
      | .ok closedFlag =>
        if closedFlag then true
        else
          -- if (allowMock && isSameDomain(win)) try { if (win.mockclosed) return true; }
          if allowMock && w.sameDomain &&
              (match w.mockclosed with | .ok b => b | .thrown _ => false) then true
          else
            -- try { if (!win.parent || !win.top) return true; } catch (err) {}
            match w.parentTruthy with
            | .thrown _ => false
            | .ok p =>
              if !p then true
              else
                match w.topTruthy with
                | .thrown _ => false
                | .ok t => if !t then true else false

/-! ## Child-window-name codec (`src/component/window.js`)

`buildChildWindowName` / `getComponentMeta`. The `hi-base32` library and
`JSON` are external collaborators (not part of this repository's sources),
so the payload codec is kept abstract as a `PayloadCodec`; a concrete
instance with the stated properties is supplied below for witnesses. -/

/-- `[a-z0-9A-Z]`, the character class of the `normalize` regexes. -/
def isAlphaNum (c : Char) : Bool :=
  ('a' ≤ c && c ≤ 'z') || ('0' ≤ c && c ≤ '9') || ('A' ≤ c && c ≤ 'Z')

/-- First regex pass of `normalize`:
`str.replace(/^[^a-z0-9A-Z]+|[^a-z0-9A-Z]+$/g, '')` — strip a leading and a
trailing run of non-alphanumeric characters. -/
def stripEdges (l : List Char) : List Char :=
  ((l.dropWhile (fun c => !isAlphaNum c)).reverse.dropWhile (fun c => !isAlphaNum c)).reverse

/-- Second regex pass of `normalize`: `replace(/[^a-z0-9A-Z]+/g, '_')` —
each maximal run of non-alphanumeric characters becomes a single `_`.
`inRun` tracks whether the scanner is inside a non-alphanumeric run whose
`_` has already been emitted. -/
def collapseRunsAux (inRun : Bool) : List Char → List Char
  | [] => []
  | c :: rest =>
    if isAlphaNum c then c :: collapseRunsAux false rest
    else if inRun then collapseRunsAux true rest
    else '_' :: collapseRunsAux true rest

def collapseRuns (l : List Char) : List Char :=
  collapseRunsAux false l

/-- `normalize(str)` from `src/component/window.js`. -/
def normalize (s : String) : String :=
  String.mk (collapseRuns (stripEdges s.toList))

/-- The `XCOMPONENT` constant (`src/constants.js`): window-name sentinel. -/
def XCOMPONENT : String := "xcomponent"

/-- The structured options object encoded into the window name.
`buildChildWindowName` stamps `options.id` and `options.domain`; the caller's
remaining option fields are kept abstractly as key/value pairs. -/
structure ChildPayload where
  id : String
  domain : String
  fields : List (String × String)
deriving Repr, DecidableEq

/-- The base32-of-JSON payload codec. The repository delegates this to the
external `hi-base32` and `JSON` collaborators, so it is abstract here:
`enc` models `base32.encode(JSON.stringify(options)).replace(/\=/g, '').toLowerCase()`
and `dec` models `JSON.parse(base32.decode(payload))` (returning `none` where
the source catches a parse error). -/
structure PayloadCodec where
  enc : ChildPayload → String
  dec : String → Option ChildPayload

/-- `buildChildWindowName(name, version, options)`: stamp `id` and `domain`
into the options, normalize name and version, encode the payload and join the
four segments with `__`; throw when the normalized name or version is empty. -/
def buildChildWindowName (codec : PayloadCodec) (name version : String)
    (options : List (String × String)) (newId curDomain : String) : Except String String :=
  let payload : ChildPayload := ⟨newId, curDomain, options⟩
  let encodedName := normalize name
  let encodedVersion := normalize version
  let encodedOptions := codec.enc payload
  if encodedName = "" then
    .error ("Invalid name: " ++ name ++ " - must contain alphanumeric characters")
  else if encodedVersion = "" then
    .error ("Invalid version: " ++ version ++ " - must contain alphanumeric characters")
  else
    .ok (String.intercalate "__" [XCOMPONENT, encodedName, encodedVersion, encodedOptions])

/-- `s.split("__")` on character lists (JS `String.prototype.split` with the
literal separator `"__"`, scanning left to right). -/
def splitDU : List Char → List (List Char)
  | [] => [[]]
  | [c] => [[c]]
  | c :: d :: rest =>
    if c = '_' && d = '_' then [] :: splitDU rest
    else
      match splitDU (d :: rest) with
      | [] => [[c]]
      | piece :: pieces => (c :: piece) :: pieces

/-- `windowName.split("__")` as strings. -/
def jsSplitDoubleUnderscore (s : String) : List String :=
  (splitDU s.toList).map String.mk

/-- `version.replace(/_/g, '.')` — restore version separators on decode. -/
def restoreVersion (v : String) : String :=
  String.mk (v.toList.map (fun c => if c = '_' then '.' else c))

/-- `s.toUpperCase()`. -/
def jsToUpperCase (s : String) : String :=
  String.mk (s.toList.map Char.toUpper)

/-- The decoded child-window descriptor: the payload recovered from the
encoded options, with `name` and `version` overwritten from the window-name
segments (`componentMeta.name = name; componentMeta.version = version.replace(/_/g, '.')`). -/
structure ComponentMeta where
  payload : ChildPayload
  name : String
  version : String
deriving Repr, DecidableEq

/-- `getComponentMeta()` (memoization is irrelevant to the value): split the
window name on `__`, require the `XCOMPONENT` sentinel as first segment,
base32/JSON-decode the fourth segment (any parse failure, including a missing
segment, is caught and yields no descriptor), then attach `name` and the
restored `version`. -/
def getComponentMeta (codec : PayloadCodec) (windowName : String) : Option ComponentMeta :=
  if windowName = "" then none
  else
    match jsSplitDoubleUnderscore windowName with
    | xcomp :: name :: version :: encodedOptions :: _ =>
      if xcomp ≠ XCOMPONENT then none
      else
        match codec.dec (jsToUpperCase encodedOptions) with
        | none => none
        | some payload => some ⟨payload, name, restoreVersion version⟩
    | xcomp :: _ =>
      -- fewer than four segments: the sentinel may still mismatch; otherwise
      -- decoding the missing segment throws and is caught, yielding nothing
      if xcomp ≠ XCOMPONENT then none else none
    | [] => none

/-! ### A concrete payload codec

Modelled from the spec: the repository's payload codec (base32-of-JSON via
the external `hi-base32` and `JSON` collaborators) is out of the covered
sources; the spec only requires *a* codec whose encoded payload is a
lowercase string free of `_` and `=` and whose decode inverts encode (and
returns nothing on a parse failure). This instance serializes the payload as
dot-separated decimal numbers (string lengths and character codes). -/

/-- Unary length marker: `n` repetitions of `1` followed by `0`. Keeps the
serialization free of position arithmetic. -/
def unaryLen : Nat → List Char
  | 0 => ['0']
  | n + 1 => '1' :: unaryLen n

def serStr (s : String) : List Char :=
  unaryLen s.length ++ s.toList

def serPayloadChars (p : ChildPayload) : List Char :=
  serStr p.id ++ serStr p.domain ++ unaryLen p.fields.length ++
    p.fields.flatMap (fun kv => serStr kv.1 ++ serStr kv.2)

def hexDigitChar (n : Nat) : Char :=
  if n < 10 then Char.ofNat ('0'.toNat + n) else Char.ofNat ('a'.toNat + (n - 10))

/-- Six lowercase hex digits per character code (fixed width). -/
def encChar (c : Char) : List Char :=
  [hexDigitChar (c.toNat / 1048576 % 16), hexDigitChar (c.toNat / 65536 % 16),
   hexDigitChar (c.toNat / 4096 % 16), hexDigitChar (c.toNat / 256 % 16),
   hexDigitChar (c.toNat / 16 % 16), hexDigitChar (c.toNat % 16)]

def specEncode (p : ChildPayload) : String :=
  String.mk ((serPayloadChars p).flatMap encChar)

def hexVal (c : Char) : Option Nat :=
  let n := c.toNat
  if 48 ≤ n ∧ n ≤ 57 then some (n - 48)
  else if 97 ≤ n ∧ n ≤ 102 then some (n - 87)
  else if 65 ≤ n ∧ n ≤ 70 then some (n - 55)
  else none

def decChars : List Char → Option (List Char)
  | [] => some []
  | c5 :: c4 :: c3 :: c2 :: c1 :: c0 :: rest =>
    match hexVal c5, hexVal c4, hexVal c3, hexVal c2, hexVal c1, hexVal c0 with
    | some v5, some v4, some v3, some v2, some v1, some v0 =>
      (decChars rest).map
        (fun cs => Char.ofNat (v5 * 1048576 + v4 * 65536 + v3 * 4096 + v2 * 256 + v1 * 16 + v0) :: cs)
    | _, _, _, _, _, _ => none
  | _ => none

def parseLen : List Char → Option (Nat × List Char)
  | '0' :: rest => some (0, rest)
  | '1' :: rest => (parseLen rest).map (fun r => (r.1 + 1, r.2))
  | _ => none

def parseStrChars (l : List Char) : Option (String × List Char) :=
  match parseLen l with
  | none => none
  | some (n, rest) =>
    if rest.length < n then none
    else some (String.mk (rest.take n), rest.drop n)

def parseFields : Nat → List Char → Option (List (String × String) × List Char)
  | 0, rest => some ([], rest)
  | n + 1, rest =>
    match parseStrChars rest with
    | none => none
    | some (k, r1) =>
      match parseStrChars r1 with
      | none => none
      | some (v, r2) =>
        match parseFields n r2 with
        | none => none
        | some (fs, r3) => some ((k, v) :: fs, r3)

def specDecode (s : String) : Option ChildPayload :=
  match decChars s.toList with
  | none => none
  | some chars =>
    match parseStrChars chars with
    | none => none
    | some (id, r1) =>
      match parseStrChars r1 with
      | none => none
      | some (domain, r2) =>
        match parseLen r2 with
        | none => none
        | some (nf, r3) =>
          match parseFields nf r3 with
          | some (fs, []) => some ⟨id, domain, fs⟩
          | _ => none

def specCodec : PayloadCodec := ⟨specEncode, specDecode⟩

/-- No two consecutive underscores occur in the character list. -/
def noDoubleUnderscore : List Char → Bool
  | [] => true
  | [_] => true
  | c :: d :: rest => !(c = '_' && d = '_') && noDoubleUnderscore (d :: rest)

/-- A window-name segment that splits cleanly when followed by a `__`
separator: no internal `__`, and it does not end in `_`. -/
def goodPiece (p : List Char) : Bool :=
  noDoubleUnderscore p && !(p.getLast? == some '_')

/-! ## Cleanup registry (`cleanup(obj)` in `dist/xcomponent.frame.js`)

A registered task is `{complete: false, name, run()}` where `run` invokes the
underlying method only when `complete` is still false and flips it. The
underlying method is kept abstract as an identifier of type `μ`; what matters
is which methods get invoked, and in what order. -/

structure CleanupTask (μ : Type) where
  name : Option String
  complete : Bool
  method : μ
deriving Repr, DecidableEq

/-- `task.run()`: if not yet complete, mark complete and invoke the method
(returning it as the invocation record); otherwise do nothing. -/
def runTask {μ : Type} (t : CleanupTask μ) : CleanupTask μ × Option μ :=
  if t.complete then (t, none)
  else ({ t with complete := true }, some t.method)

/-- One `tasks.pop().run()` per iteration, walking the pop order (last
registered first). -/
def runPopOrder {μ : Type} : List (CleanupTask μ) → List (Option μ)
  | [] => []
  | t :: rest => (runTask t).2 :: runPopOrder rest

/-- The `all()` loop: `for (; tasks.length; ) results.push(tasks.pop().run())`
— `pop()` removes and returns the *last* element, so the loop runs the tasks
in reverse registration order until the array is empty, collecting each
iteration's invocation (`none` for a task that was already complete). -/
def popRunAll {μ : Type} (tasks : List (CleanupTask μ)) : List (Option μ) :=
  runPopOrder tasks.reverse

/-- `register(name, method)` appends a fresh incomplete task (the
`cleaned`-already case immediately invokes and registers nothing). -/
def registerTask {μ : Type} (tasks : List (CleanupTask μ)) (name : Option String) (method : μ) :
    List (CleanupTask μ) :=
  tasks ++ [⟨name, false, method⟩]

/-! ## Prop normalization and validation (`normalizeProp` / `validateProp`)

JS primitive values; `parseInt(value, 10)` stringifies its argument and
parses a leading base-10 integer, giving `NaN` when no digits are found.
The getter and function branches of `normalizeProp` act on callables and are
outside this primitive-value slice. -/

inductive JSNum where
  | nan
  | int (i : Int)
deriving Repr, DecidableEq

inductive JSValue where
  | undefined
  | null
  | bool (b : Bool)
  | num (n : JSNum)
  | str (s : String)
deriving Repr, DecidableEq

/-- JS `String(value)` on primitives. -/
def jsToString : JSValue → String
  | .undefined => "undefined"
  | .null => "null"
  | .bool true => "true"
  | .bool false => "false"
  | .num .nan => "NaN"
  | .num (.int i) => toString i
  | .str s => s

/-- JS `Boolean(value)` on primitives. -/
def jsToBool : JSValue → Bool
  | .undefined => false
  | .null => false
  | .bool b => b
  | .num .nan => false
  | .num (.int i) => i != 0
  | .str s => s ≠ ""

def isJsSpace (c : Char) : Bool :=
  c = ' ' || c = '\t' || c = '\n' || c = '\r'

def digitsToNat (l : List Char) : Nat :=
  l.foldl (fun acc c => acc * 10 + (c.toNat - '0'.toNat)) 0

/-- `parseInt(s, 10)`: skip whitespace, optional sign, then a maximal run of
decimal digits; `NaN` when the run is empty. -/
def parseIntBase10 (s : String) : JSNum :=
  let l := s.toList.dropWhile isJsSpace
  let signAndRest : Bool × List Char :=
    match l with
    | '-' :: rest => (true, rest)
    | '+' :: rest => (false, rest)
    | _ => (false, l)
  let digits := signAndRest.2.takeWhile Char.isDigit
  if digits.isEmpty then .nan
  else
    let mag : Int := Int.ofNat (digitsToNat digits)
    .int (if signAndRest.1 then -mag else mag)

/-- The type-coercion tail of `normalizeProp` (after the getter and function
branches, neither of which applies to a primitive supplied value):
`boolean` coerces with `Boolean`; `number` parses base-10 unless the value is
undefined; `string` and `object` (and any other type) short-circuit without
coercing. -/
def normalizeProp (propType : String) (value : JSValue) : JSValue :=
  if propType = "boolean" then .bool (jsToBool value)
  else if propType = "number" then
    if value ≠ .undefined then .num (parseIntBase10 (jsToString value)) else value
  else value

/-- `value !== null && value !== undefined && value !== ""` — the guard under
which `validateProp` type-checks a supplied value. -/
def isDefinedValue (v : JSValue) : Bool :=
  v ≠ .null && v ≠ .undefined && v ≠ .str ""

/-- `validateProp(prop, key, value, props)` on a primitive (non-thenable)
value: type-check a defined value (a primitive can never satisfy the
`function` check; `string` requires a string; `object` JSON-stringifies,
which cannot fail on primitives; `number` fails iff `parseInt(value, 10)` is
`NaN`); an undefined value fails only when required with no default. -/
def validateProp (propType key : String) (value : JSValue)
    (required : Bool) (propRequired : Option Bool) (hasDef : Bool) : Except String Unit :=
  if isDefinedValue value then
    if propType = "function" then .error ("Prop is not of type function: " ++ key)
    else if propType = "string" then
      match value with
      | .str _ => .ok ()
      | _ => .error ("Prop is not of type string: " ++ key)
    else if propType = "object" then .ok ()
    else if propType = "number" then
      if parseIntBase10 (jsToString value) = .nan then
        .error ("Prop is not a number: " ++ key)
      else .ok ()
    else .ok ()
  else
    if required && propRequired ≠ some false && !hasDef then
      .error ("Prop is required: " ++ key)
    else .ok ()

/-! ## Message-bus listener table
(`addRequestListener` / `getRequestListener` in `dist/xcomponent.frame.js`)

The table is `requestListeners[name] → weak-map(window) → winListeners`,
where `winListeners` is a JS object holding literal-domain keys and, under
the string key `"__domain_regex__"`, the array of regex entries. Windows are
abstract identities; `WINDOW_WILDCARD` is the sentinel object listeners for
any window are stored under. -/

inductive WinKey where
  | window (id : Nat)
  | windowWildcard
deriving Repr, DecidableEq

/-- A `{regex, listener}` element of the per-window regex array. The regex
carries its `toString` rendering and engine predicate; `listenerId`
identifies the listener closure. `indexOf` on the array compares by object
identity, which `(source, listenerId)` stands in for. -/
structure RegexEntry where
  source : String
  test : String → Bool
  listenerId : Nat

/-- JS `===`-identity proxy for regex-array elements. -/
def regexEntryIs (a b : RegexEntry) : Bool :=
  a.source == b.source && a.listenerId == b.listenerId

/-- A value stored in a `winListeners` object: a listener under a
literal-domain key, or the regex array under `"__domain_regex__"`. -/
inductive WinVal where
  | listener (id : Nat)
  | regexList (entries : List RegexEntry)

def DOMAIN_REGEX_KEY : String := "__domain_regex__"

/-- A scalar (non-array) domain: a string or a regex. The source's
array-domain branch of `addRequestListener` recurses onto this case
element-wise. -/
inductive ScalarDomain where
  | str (s : String)
  | regex (source : String) (test : String → Bool)

/-- `domain.toString()`. -/
def scalarToString : ScalarDomain → String
  | .str s => s
  | .regex src _ => src

def scalarToPattern : ScalarDomain → DomainPattern
  | .str s => .str s
  | .regex src t => .regex src t

abbrev WinListeners := List (String × WinVal)
abbrev NameListeners := List (WinKey × WinListeners)
abbrev RequestListeners := List (String × NameListeners)

/-- The inner loop of `getRequestListener` over one `winListeners` object:
try the queried domain's literal key (skipped when its string form is falsy),
then the `*` key, then scan the regex array in insertion order with
`matchDomain(regex, domain)`. (With a null query domain and a non-empty
regex array the source would throw a `TypeError` inside `matchDomain`; no
modelled state reaches that.) -/
def searchWinListeners (wl : WinListeners) (qdomain : Option ScalarDomain) : Option WinVal :=
  let byLiteral : Option WinVal :=
    match qdomain with
    | some d => if scalarToString d ≠ "" then objGet wl (scalarToString d) else none
    | none => none
  match byLiteral with
  | some v => some v
  | none =>
    match objGet wl WILDCARD with
    | some v => some v
    | none =>
      match objGet wl DOMAIN_REGEX_KEY with
      | some (.regexList entries) =>
        match qdomain with
        | some d =>
          (entries.find? (fun e => matchDomain (.regex e.source e.test) (scalarToPattern d))).map
            (fun e => WinVal.listener e.listenerId)
        | none => none
      | _ => none

/-- `win === WILDCARD && (win = null); domain === WILDCARD && (domain = null)`
— the wildcard query domain is nulled out on entry. -/
def normalizeQueryDomain (qdomain0 : Option ScalarDomain) : Option ScalarDomain :=
  match qdomain0 with
  | some (.str s) => if s = WILDCARD then none else some (.str s)
  | x => x

/-- The first window qualifier of `getRequestListener`: the queried window
itself (`null` is skipped). -/
def lookupFromWin (nl : NameListeners) (qwin : Option WinKey)
    (qdomain : Option ScalarDomain) : Option WinVal :=
  match qwin with
  | some w =>
    match objGet nl w with
    | some wl => searchWinListeners wl qdomain
    | none => none
  | none => none

/-- The qualifier loop of `getRequestListener` over one name's window map:
look up each window qualifier in `[win, WINDOW_WILDCARD]` in turn and search
its `winListeners`. -/
def lookupNLBody (nl : NameListeners) (qwin : Option WinKey)
    (qdomain : Option ScalarDomain) : Option WinVal :=
  match lookupFromWin nl qwin qdomain with
  | some v => some v
  | none =>
    match objGet nl WinKey.windowWildcard with
    | some wl => searchWinListeners wl qdomain
    | none => none

/-- `requestListeners[name]` may be absent entirely. -/
def lookupNameListeners (nl : Option NameListeners) (qwin : Option WinKey)
    (qdomain : Option ScalarDomain) : Option WinVal :=
  match nl with
  | none => none
  | some nameListeners => lookupNLBody nameListeners qwin qdomain

/-- `getRequestListener({name, win, domain})`. -/
def getRequestListener (rl : RequestListeners) (qname : String) (qwin : Option WinKey)
    (qdomain0 : Option ScalarDomain) : Option WinVal :=
  lookupNameListeners (objGet rl qname) qwin (normalizeQueryDomain qdomain0)

/-- A concrete regex engine for witnesses: the predicate of `/^https:/`. -/
def httpsTest (o : String) : Bool :=
  "https:".toList.isPrefixOf o.toList

/-- A query domain that does not collide with the internal
`"__domain_regex__"` bucket key of the listener table. -/
def queryDomainOk (qd : Option ScalarDomain) : Prop :=
  ∀ d, qd = some d → scalarToString d ≠ DOMAIN_REGEX_KEY

/-- What the `cancel` closure returned by `addRequestListener` captured:
the path to the mutated `winListeners` object, the stored literal key, and
the regex entry pushed (if the domain was a regex). -/
structure CancelCtx where
  name : String
  winKey : WinKey
  strDomain : String
  regexEntry : Option RegexEntry

/-- The storing half of `addRequestListener`, after the existence check and
the window/domain defaulting: store the listener under the domain's string
key, and for a regex domain also push a `{regex, listener}` entry onto the
per-window regex array (a non-array value already stored under the regex key
would make the source's `push` throw a `TypeError`). -/
def registerListener (rl : RequestListeners) (name : String) (winKey : WinKey)
    (dom : ScalarDomain) (listenerId : Nat) : Except String (RequestListeners × CancelCtx) :=
  let nameListeners := (objGet rl name).getD []
  let winListeners := (objGet nameListeners winKey).getD []
  let strDomain := scalarToString dom
  let wl1 := objSet winListeners strDomain (.listener listenerId)
  match dom with
  | .str _ =>
    .ok (objSet rl name (objSet nameListeners winKey wl1),
         ⟨name, winKey, strDomain, none⟩)
  | .regex src test =>
    match objGet wl1 DOMAIN_REGEX_KEY with
    | some (.listener _) =>
      .error "TypeError: regexListeners.push is not a function"
    | some (.regexList l) =>
      let e : RegexEntry := ⟨src, test, listenerId⟩
      let wl2 := objSet wl1 DOMAIN_REGEX_KEY (.regexList (l ++ [e]))
      .ok (objSet rl name (objSet nameListeners winKey wl2),
           ⟨name, winKey, strDomain, some e⟩)
    | none =>
      let e : RegexEntry := ⟨src, test, listenerId⟩
      let wl2 := objSet wl1 DOMAIN_REGEX_KEY (.regexList [e])
      .ok (objSet rl name (objSet nameListeners winKey wl2),
           ⟨name, winKey, strDomain, some e⟩)

/-- `addRequestListener({name, win, domain}, listener)` for a scalar window
and a scalar domain (the source's array branches recurse onto this case):
fail on a nameless registration or when `getRequestListener` already finds a
listener for the key; otherwise default the window to `WINDOW_WILDCARD` and
the domain to `*` and store. -/
def addRequestListener (rl : RequestListeners) (name : String) (win : Option WinKey)
    (domain : Option ScalarDomain) (listenerId : Nat) :
    Except String (RequestListeners × CancelCtx) :=
  if name = "" then .error "Name required to add request listener"
  else
    match getRequestListener rl name win domain with
    | some _ => .error ("Request listener already exists for " ++ name)
    | none =>
      registerListener rl name
        (match win with
         | none => WinKey.windowWildcard
         | some w => w)
        (domain.getD (.str WILDCARD)) listenerId

/-- Index of the first entry satisfying `p`. -/
def findIdxFrom (p : RegexEntry → Bool) : List RegexEntry → Option Nat
  | [] => none
  | e :: rest => if p e then some 0 else (findIdxFrom p rest).map (fun i => i + 1)

/-- JS `Array.prototype.indexOf(x, fromIndex)` (identity comparison):
search from `fromIndex`, `-1` when absent. -/
def jsIndexOfFrom (l : List RegexEntry) (x : RegexEntry) (fromIdx : Nat) : Int :=
  match findIdxFrom (fun e => regexEntryIs e x) (l.drop fromIdx) with
  | some i => ((fromIdx + i : Nat) : Int)
  | none => -1

/-- JS `Array.prototype.splice(start)` with a single argument: remove every
element from the normalized start index (negative counts from the end,
clamped) through the end, leaving the prefix. -/
def jsSpliceFrom {α : Type} (l : List α) (start : Int) : List α :=
  let len : Int := (l.length : Int)
  let s : Int := if start < 0 then max (len + start) 0 else min start len
  l.take s.toNat

/-- The `cancel` closure of `addRequestListener`:
`delete winListeners[strDomain]`, then
`win && Object.keys(winListeners).length === 0 && nameListeners.delete(win)`,
then `regexListener && regexListeners.splice(regexListeners.indexOf(regexListener, 1))`
— note that the source passes `1` as `indexOf`'s *fromIndex* and gives
`splice` no delete-count, and that when the window was deleted the splice
acts on a detached array with no table effect. -/
def cancelRequestListener (rl : RequestListeners) (ctx : CancelCtx) : RequestListeners :=
  match objGet rl ctx.name with
  | none => rl
  | some nameListeners =>
    match objGet nameListeners ctx.winKey with
    | none => rl
    | some winListeners =>
      let wl1 := objDelete winListeners ctx.strDomain
      if wl1.length = 0 then
        objSet rl ctx.name (objDelete nameListeners ctx.winKey)
      else
        let wl2 :=
          match ctx.regexEntry with
          | none => wl1
          | some e =>
            match objGet wl1 DOMAIN_REGEX_KEY with
            | some (.regexList l) =>
              objSet wl1 DOMAIN_REGEX_KEY (.regexList (jsSpliceFrom l (jsIndexOfFrom l e 1)))
            | _ => wl1
        objSet rl ctx.name (objSet nameListeners ctx.winKey wl2)

/-! ## Response-listener table and receive handlers
(`addResponseListener`, `RECEIVE_MESSAGE_TYPES[ACK]`,
`RECEIVE_MESSAGE_TYPES[RESPONSE]`, and the table slice of `request`). -/

/-- An entry of `responseListeners`: the pending request's name, peer window,
origin pattern, and ack flag; the `respond(err, result)` continuation is
represented by the `RespondAction` the receive handler would invoke it
with. -/
structure ResponseListener where
  name : String
  window : WinKey
  domain : DomainPattern
  ack : Bool

abbrev ResponseListeners := List (String × ResponseListener)

/-- `addResponseListener(hash, listener)`:
`global.responseListeners[hash] = listener`. -/
def addResponseListener (l : ResponseListeners) (hash : String) (listener : ResponseListener) :
    ResponseListeners :=
  objSet l hash listener

/-- `deleteResponseListener(hash)`. -/
def deleteResponseListener (l : ResponseListeners) (hash : String) : ResponseListeners :=
  objDelete l hash

def getResponseListener (l : ResponseListeners) (hash : String) : Option ResponseListener :=
  objGet l hash

/-- `message.ack` of a RESPONSE frame (`POST_MESSAGE_ACK`). -/
inductive AckStatus where
  | success
  | error
deriving Repr, DecidableEq

/-- How the RESPONSE handler settles the matching entry's `respond(err, result)`
continuation: reject with the rehydrated remote error, or resolve with
`{source, origin, data}`. -/
inductive RespondAction (δ : Type) where
  | rejectWith (errmsg : String)
  | resolveWith (origin : String) (data : Option δ)
deriving Repr, DecidableEq

/-- `RECEIVE_MESSAGE_TYPES[ACK](source, origin, message)`: look up the entry
by hash (error if absent), error if the origin does not match the stored
domain pattern — leaving the entry unmarked — else set `options.ack = true`. -/
def receiveAck (l : ResponseListeners) (origin : String) (hash messageName : String) :
    Except String ResponseListeners :=
  match getResponseListener l hash with
  | none => .error ("No handler found for post message ack for message: " ++ messageName)
  | some options =>
    if !matchDomain options.domain (.str origin) then
      .error ("Ack origin " ++ origin ++ " does not match domain")
    else
      .ok (objSet l hash { options with ack := true })

/-- `RECEIVE_MESSAGE_TYPES[RESPONSE](source, origin, message)`: look up the
entry by hash (error if absent), error if the origin does not match the
stored domain pattern — the entry is kept and `respond` is never invoked —
else delete the entry and invoke `respond`: rejecting on `ack === "error"`,
resolving with the data on `ack === "success"`. -/
def receiveResponse {δ : Type} (l : ResponseListeners) (origin : String)
    (hash messageName : String) (ack : Option AckStatus) (errmsg : String) (data : Option δ) :
    Except String (ResponseListeners × Option (RespondAction δ)) :=
  match getResponseListener l hash with
  | none => .error ("No handler found for post message response for message: " ++ messageName)
  | some options =>
    if !matchDomain options.domain (.str origin) then
      .error ("Response origin " ++ origin ++ " does not match domain")
    else
      let l' := deleteResponseListener l hash
      match ack with
      | some .error => .ok (l', some (.rejectWith errmsg))
      | some .success => .ok (l', some (.resolveWith origin data))
      | none => .ok (l', none)

/-- The observable outcome of the response-table slice of `request`
(`dist/xcomponent.frame.js`): which table results, whether the returned
promise was resolved synchronously, and whether the ack/response deadline
interval was started. -/
structure RequestOutcome where
  responseListeners : ResponseListeners
  resolvedImmediately : Bool
  timersStarted : Bool

/-- The response-table slice of `request(options)`, after the hash is built
and the target window checked: `addResponseListener(hash, responseListener)`
runs unconditionally, then the REQUEST frame is posted (no table effect),
then `if (options.fireAndForget) return resolve();` — only otherwise are the
ACK (1s) and response (10s) deadline timers started. -/
def requestRegisterSlice (l : ResponseListeners) (hash : String) (entry : ResponseListener)
    (fireAndForget : Bool) : RequestOutcome :=
  let l' := addResponseListener l hash entry
  if fireAndForget then ⟨l', true, false⟩
  else ⟨l', false, true⟩

/-! ## Method-handle serialization
(`serializeMethod`, `deserializeMethod`, `listenForMethods`). -/

/-- `SERIALIZATION_TYPES.METHOD`. -/
def SERIALIZE_METHOD : String := "postrobot_method"

/-- The per-peer method table `global.methods.get(destination)`:
`id → {domain, method}`. A method takes the stub's argument list and either
returns a value or throws. -/
structure MethodEntry (α β : Type) where
  domain : DomainPattern
  method : α → Except String β

abbrev MethodTable (α β : Type) := List (String × MethodEntry α β)

/-- The `{__type__, __id__, __name__}` marker a callable is replaced with. -/
structure SerializedMethod where
  typeTag : String
  id : String
  name : String
deriving Repr, DecidableEq

/-- `serializeMethod(destination, domain, method, name)`: record
`methods[id] = {domain, method}` in the destination's table (`id` is the
generated `uniqueID()`, passed in here) and return the marker. -/
def serializeMethod {α β : Type} (methods : MethodTable α β) (id : String)
    (domain : DomainPattern) (method : α → Except String β) (name : String) :
    SerializedMethod × MethodTable α β :=
  (⟨SERIALIZE_METHOD, id, name⟩, objSet methods id ⟨domain, method⟩)

/-- `{result, id, name}` — the data of a METHOD response. -/
structure MethodResponseData (β : Type) where
  result : β
  id : String
  name : String

/-- The `listenForMethods` request handler, given the sender's per-peer table
for the requesting window (`none` when `global.methods.get(source)` is
absent): look up the method by id, check the recorded domain against the
request origin, then apply the method to the args and wrap the result as
`{result, id, name}` (a throwing method rejects). -/
def methodMessageHandler {α β : Type} (methods : Option (MethodTable α β)) (origin : String)
    (id name : String) (args : α) : Except String (MethodResponseData β) :=
  match methods with
  | none => .error "Could not find any methods this window has privileges to call"
  | some ms =>
    match objGet ms id with
    | none => .error ("Could not find method with id: " ++ id)
    | some meth =>
      if !matchDomain meth.domain (.str origin) then
        .error "Method domain does not match origin"
      else
        (meth.method args).map (fun result => ⟨result, id, name⟩)

/-- Invoking the stub `deserializeMethod` builds on the receiving side: the
stub sends a METHOD request `{id, name, args}` back to the serializing
window (infinite timeout), whose `listenForMethods` handler services it; the
stub's promise resolves with the response's `data.result` and rejects with
the handler's error. The postMessage transport in between is collapsed to
direct delivery. -/
def invokeDeserializedMethod {α β : Type} (senderMethods : MethodTable α β) (origin : String)
    (marker : SerializedMethod) (args : α) : Except String β :=
  (methodMessageHandler (some senderMethods) origin marker.id marker.name args).map
    (fun d => d.result)

/-! # Theorems -/

/-! ## Association-list lemmas -/

@[simp] theorem objGet_nil {κ ν : Type} [BEq κ] (k : κ) : objGet ([] : List (κ × ν)) k = none := rfl

@[simp] theorem objGet_cons {κ ν : Type} [BEq κ] (k' k : κ) (v : ν) (rest : List (κ × ν)) :
    objGet ((k', v) :: rest) k = if k' == k then some v else objGet rest k := rfl

@[simp] theorem objSet_nil {κ ν : Type} [BEq κ] (k : κ) (v : ν) :
    objSet ([] : List (κ × ν)) k v = [(k, v)] := rfl

@[simp] theorem objSet_cons {κ ν : Type} [BEq κ] (k' k : κ) (v' v : ν) (rest : List (κ × ν)) :
    objSet ((k', v') :: rest) k v =
      if k' == k then (k, v) :: rest else (k', v') :: objSet rest k v := rfl

@[simp] theorem objDelete_nil {κ ν : Type} [BEq κ] (k : κ) :
    objDelete ([] : List (κ × ν)) k = [] := rfl

@[simp] theorem objDelete_cons {κ ν : Type} [BEq κ] (k' k : κ) (v' : ν) (rest : List (κ × ν)) :
    objDelete ((k', v') :: rest) k = if k' == k then rest else (k', v') :: objDelete rest k := rfl

theorem objGet_objSet {κ ν : Type} [BEq κ] [LawfulBEq κ] (l : List (κ × ν)) (k : κ) (v : ν) :
    objGet (objSet l k v) k = some v := by
  induction l with
  | nil => simp [objGet, objSet]
  | cons hd tl ih =>
    obtain ⟨k', v'⟩ := hd
    by_cases h : k' = k
    · simp [objGet, objSet, h]
    · simp only [objSet, objGet, beq_iff_eq, h, if_false]
      exact ih

/-- Appending a fresh key: `objSet` on a list that does not bind `k`. -/
theorem objSet_eq_append {κ ν : Type} [BEq κ] [LawfulBEq κ] (l : List (κ × ν)) (k : κ) (v : ν)
    (h : objGet l k = none) : objSet l k v = l ++ [(k, v)] := by
  induction l with
  | nil => simp [objSet]
  | cons hd tl ih =>
    obtain ⟨k', v'⟩ := hd
    by_cases hk : k' = k
    · simp [objGet, hk] at h
    · simp only [objGet, beq_iff_eq, hk, if_false] at h
      simp [objSet, hk, ih h]

/-- Deleting a key that is absent from the front part removes the appended binding. -/
theorem objDelete_append_fresh {κ ν : Type} [BEq κ] [LawfulBEq κ]
    (l : List (κ × ν)) (k : κ) (v : ν) (h : objGet l k = none) :
    objDelete (l ++ [(k, v)]) k = l := by
  induction l with
  | nil => simp [objDelete]
  | cons hd tl ih =>
    obtain ⟨k', v'⟩ := hd
    by_cases hk : k' = k
    · simp [objGet, hk] at h
    · simp only [objGet, beq_iff_eq, hk, if_false] at h
      simp [objDelete, hk, ih h]

/-- Overwriting a key with the value it already holds is the identity. -/
theorem objSet_same {κ ν : Type} [BEq κ] [LawfulBEq κ] (l : List (κ × ν)) (k : κ) (v : ν)
    (h : objGet l k = some v) : objSet l k v = l := by
  induction l with
  | nil => simp [objGet] at h
  | cons hd tl ih =>
    obtain ⟨k', v'⟩ := hd
    by_cases hk : k' = k
    · subst hk
      simp only [objGet, beq_self_eq_true, if_true, Option.some.injEq] at h
      simp [objSet, h]
    · simp only [objGet, beq_iff_eq, hk, if_false] at h
      simp [objSet, hk, ih h]

theorem objGet_objSet_ne {κ ν : Type} [BEq κ] [LawfulBEq κ]
    (l : List (κ × ν)) (k k' : κ) (v : ν) (h : k ≠ k') :
    objGet (objSet l k v) k' = objGet l k' := by
  induction l with
  | nil => simp [objGet, objSet, h]
  | cons hd tl ih =>
    obtain ⟨k₀, v₀⟩ := hd
    by_cases hk : k₀ = k
    · subst hk
      simp [objGet, objSet, h]
    · simp only [objSet, objGet, beq_iff_eq, hk, if_false]
      split <;> simp_all

theorem objGet_objDelete_ne {κ ν : Type} [BEq κ] [LawfulBEq κ]
    (l : List (κ × ν)) (k k' : κ) (h : k ≠ k') :
    objGet (objDelete l k) k' = objGet l k' := by
  induction l with
  | nil => simp [objDelete]
  | cons hd tl ih =>
    obtain ⟨k₀, v₀⟩ := hd
    by_cases hk : k₀ = k
    · subst hk
      simp [objDelete, objGet, h]
    · by_cases hk' : k₀ = k'
      · subst hk'
        simp [objDelete, objGet, hk]
      · simp [objDelete, objGet, hk, hk', ih]

/-! ## `matchDomain` unfolding lemmas -/

@[simp] theorem matchDomain_str_str (p o : String) :
    matchDomain (.str p) (.str o) = (p == WILDCARD || o == p) := by
  simp [matchDomain]

@[simp] theorem matchDomain_regex_str (src : String) (t : String → Bool) (o : String) :
    matchDomain (.regex src t) (.str o) = t o := by
  rw [matchDomain.eq_def]

theorem matchDomain_list_str (ps : List DomainPattern) (o : String) :
    matchDomain (.list ps) (.str o) = ps.any (fun p => matchDomain p (.str o)) := by
  rw [matchDomain]
  rw [Bool.eq_iff_iff]
  simp only [List.any_eq_true, List.mem_attach, true_and, Subtype.exists]
  constructor
  · rintro ⟨p, hp, h⟩
    exact ⟨p, hp, h⟩
  · rintro ⟨p, hp, h⟩
    exact ⟨p, hp, h⟩

theorem objSet_objSet {κ ν : Type} [BEq κ] [LawfulBEq κ] (l : List (κ × ν)) (k : κ) (v w : ν) :
    objSet (objSet l k v) k w = objSet l k w := by
  induction l with
  | nil => simp [objSet]
  | cons hd tl ih =>
    obtain ⟨k₀, v₀⟩ := hd
    by_cases hk : k₀ = k
    · simp [objSet, hk]
    · simp [objSet, hk, ih]

theorem objDelete_of_get_none {κ ν : Type} [BEq κ] [LawfulBEq κ] (l : List (κ × ν)) (k : κ)
    (h : objGet l k = none) : objDelete l k = l := by
  induction l with
  | nil => rfl
  | cons hd tl ih =>
    obtain ⟨k₀, v₀⟩ := hd
    by_cases hk : k₀ = k
    · simp [objGet, hk] at h
    · simp only [objGet, beq_iff_eq, hk, if_false] at h
      simp [objDelete, hk, ih h]

theorem objGet_append {κ ν : Type} [BEq κ] (a b : List (κ × ν)) (k : κ) :
    objGet (a ++ b) k = match objGet a k with | some v => some v | none => objGet b k := by
  induction a with
  | nil => simp [objGet]
  | cons hd tl ih =>
    obtain ⟨k₀, v₀⟩ := hd
    by_cases hk : (k₀ == k) = true
    · simp [objGet, hk]
    · simp only [List.cons_append, objGet, hk, if_false]
      exact ih

theorem objSet_append_inplace {κ ν : Type} [BEq κ] [LawfulBEq κ]
    (a b : List (κ × ν)) (k : κ) (v0 v : ν) (h : objGet a k = some v0) :
    objSet (a ++ b) k v = objSet a k v ++ b := by
  induction a with
  | nil => simp [objGet] at h
  | cons hd tl ih =>
    obtain ⟨k₀, v₀⟩ := hd
    by_cases hk : k₀ = k
    · simp [objSet, hk]
    · simp only [objGet, beq_iff_eq, hk, if_false] at h
      simp [objSet, hk, ih h]

theorem objDelete_append_of_get_none {κ ν : Type} [BEq κ] [LawfulBEq κ]
    (a b : List (κ × ν)) (k : κ) (h : objGet a k = none) :
    objDelete (a ++ b) k = a ++ objDelete b k := by
  induction a with
  | nil => simp
  | cons hd tl ih =>
    obtain ⟨k₀, v₀⟩ := hd
    by_cases hk : k₀ = k
    · simp [objGet, hk] at h
    · simp only [objGet, beq_iff_eq, hk, if_false] at h
      simp [objDelete, hk, ih h]

theorem objGet_none_of_not_mem_keys {κ ν : Type} [BEq κ] [LawfulBEq κ]
    (l : List (κ × ν)) (k : κ) (h : k ∉ l.map Prod.fst) : objGet l k = none := by
  induction l with
  | nil => rfl
  | cons hd tl ih =>
    obtain ⟨k₀, v₀⟩ := hd
    simp only [List.map_cons, List.mem_cons] at h
    push_neg at h
    have hk : k₀ ≠ k := fun he => h.1 he.symm
    simp only [objGet, beq_iff_eq, hk, if_false]
    exact ih h.2

/-- With unique keys, deleting a key removes its only binding. -/
theorem objGet_objDelete_self_of_nodup {κ ν : Type} [BEq κ] [LawfulBEq κ]
    (l : List (κ × ν)) (k : κ) (hnd : (l.map Prod.fst).Nodup) :
    objGet (objDelete l k) k = none := by
  induction l with
  | nil => rfl
  | cons hd tl ih =>
    obtain ⟨k₀, v₀⟩ := hd
    simp only [List.map_cons, List.nodup_cons] at hnd
    by_cases hk : k₀ = k
    · subst hk
      have hrest : objDelete ((k₀, v₀) :: tl) k₀ = tl := by
        simp [objDelete]
      rw [hrest]
      exact objGet_none_of_not_mem_keys tl k₀ hnd.1
    · simp [objDelete, objGet, hk, ih hnd.2]

/-- `findIdxFrom` over a list whose elements all fail, extended by one
success. -/
theorem findIdxFrom_append_single (p : RegexEntry → Bool) (xs : List RegexEntry)
    (b : RegexEntry) (hxs : ∀ a ∈ xs, p a = false) (hb : p b = true) :
    findIdxFrom p (xs ++ [b]) = some xs.length := by
  induction xs with
  | nil =>
    show (if p b then some 0 else (findIdxFrom p []).map (fun i => i + 1)) = some 0
    rw [hb]
    simp
  | cons x xs' ih =>
    have hx : p x = false := hxs x (by simp)
    have hxs' : ∀ a ∈ xs', p a = false := fun a ha => hxs a (by simp [ha])
    show (if p x then some 0 else (findIdxFrom p (xs' ++ [b])).map (fun i => i + 1)) =
      some (x :: xs').length
    rw [hx, ih hxs']
    simp

/-- The buggy `splice(indexOf(entry, 1))` of the cancel closure nevertheless
removes exactly the just-pushed last entry, provided no earlier entry is
identical to it. -/
theorem spliceRestore (l0 : List RegexEntry) (e : RegexEntry)
    (hfresh : ∀ e' ∈ l0, regexEntryIs e' e = false) :
    jsSpliceFrom (l0 ++ [e]) (jsIndexOfFrom (l0 ++ [e]) e 1) = l0 := by
  have he : regexEntryIs e e = true := by simp [regexEntryIs]
  cases l0 with
  | nil =>
    simp [jsIndexOfFrom, jsSpliceFrom, findIdxFrom, he]
  | cons x xs =>
    have hidx : jsIndexOfFrom ((x :: xs) ++ [e]) e 1 = ((x :: xs).length : Int) := by
      unfold jsIndexOfFrom
      have hdrop : ((x :: xs) ++ [e]).drop 1 = xs ++ [e] := by simp
      rw [hdrop]
      rw [findIdxFrom_append_single (fun e' => regexEntryIs e' e) xs e
        (fun a ha => hfresh a (by simp [ha])) he]
      simp
      omega
    rw [hidx]
    unfold jsSpliceFrom
    have hlen : (((x :: xs) ++ [e]).length : Int) = ((x :: xs).length : Int) + 1 := by
      simp
    simp only [hlen]
    have hcond : ¬(((x :: xs).length : Int) < 0) := by omega
    rw [if_neg hcond]
    have hmin : min ((x :: xs).length : Int) (((x :: xs).length : Int) + 1) =
        ((x :: xs).length : Int) := by omega
    rw [hmin]
    have htn : (((x :: xs).length : Int)).toNat = (x :: xs).length := by omega
    rw [htn]
    exact List.take_left (x :: xs) [e]

theorem objDelete_objSet {κ ν : Type} [BEq κ] [LawfulBEq κ] (l : List (κ × ν)) (k : κ) (v : ν) :
    objDelete (objSet l k v) k = objDelete l k := by
  induction l with
  | nil => simp [objSet, objDelete]
  | cons hd tl ih =>
    obtain ⟨k₀, v₀⟩ := hd
    by_cases hk : k₀ = k
    · simp [objSet, objDelete, hk]
    · simp [objSet, objDelete, hk, ih]

theorem objSet_ne_nil {κ ν : Type} [BEq κ] (l : List (κ × ν)) (k : κ) (v : ν) :
    objSet l k v ≠ [] := by
  cases l with
  | nil => simp [objSet]
  | cons hd tl =>
    obtain ⟨k₀, v₀⟩ := hd
    by_cases hk : (k₀ == k) = true <;> simp [objSet, hk]

theorem objGet_some_ne_nil {κ ν : Type} [BEq κ] (l : List (κ × ν)) (k : κ) (v : ν)
    (h : objGet l k = some v) : l ≠ [] := by
  intro hnil
  rw [hnil] at h
  simp [objGet] at h

theorem objDelete_eq_nil_cases {κ ν : Type} [BEq κ] [LawfulBEq κ] (l : List (κ × ν)) (k : κ)
    (h : objDelete l k = []) : l = [] ∨ ∃ v, l = [(k, v)] := by
  cases l with
  | nil => exact Or.inl rfl
  | cons hd tl =>
    obtain ⟨k₀, v₀⟩ := hd
    by_cases hk : k₀ = k
    · subst hk
      simp only [objDelete, beq_self_eq_true, if_true] at h
      subst h
      exact Or.inr ⟨v₀, rfl⟩
    · simp [objDelete, hk] at h

theorem objSet_append_right {κ ν : Type} [BEq κ] [LawfulBEq κ]
    (a b : List (κ × ν)) (k : κ) (v : ν) (h : objGet a k = none) :
    objSet (a ++ b) k v = a ++ objSet b k v := by
  induction a with
  | nil => simp
  | cons hd tl ih =>
    obtain ⟨k₀, v₀⟩ := hd
    by_cases hk : k₀ = k
    · simp [objGet, hk] at h
    · simp only [objGet, beq_iff_eq, hk, if_false] at h
      simp [objSet, hk, ih h]

theorem objDelete_append_left {κ ν : Type} [BEq κ] [LawfulBEq κ]
    (a b : List (κ × ν)) (k : κ) (v : ν) (h : objGet a k = some v) :
    objDelete (a ++ b) k = objDelete a k ++ b := by
  induction a with
  | nil => simp [objGet] at h
  | cons hd tl ih =>
    obtain ⟨k₀, v₀⟩ := hd
    by_cases hk : k₀ = k
    · simp [objDelete, hk]
    · simp only [objGet, beq_iff_eq, hk, if_false] at h
      simp [objDelete, hk, ih h]

/-! ## Listener-table search lemmas -/

theorem searchWinListeners_congr (wlA wlB : WinListeners)
    (hk : ∀ k : String, k ≠ "" → objGet wlA k = objGet wlB k)
    (qd : Option ScalarDomain) :
    searchWinListeners wlA qd = searchWinListeners wlB qd := by
  have hwild : objGet wlA WILDCARD = objGet wlB WILDCARD := hk WILDCARD (by decide)
  have hdrk : objGet wlA DOMAIN_REGEX_KEY = objGet wlB DOMAIN_REGEX_KEY :=
    hk DOMAIN_REGEX_KEY (by decide)
  unfold searchWinListeners
  cases qd with
  | none => rw [hwild, hdrk]
  | some d =>
    by_cases hd : scalarToString d = ""
    · simp only [hd, ne_eq, not_true_eq_false, if_false]
      rw [hwild, hdrk]
    · simp only [ne_eq, hd, not_false_eq_true, if_true]
      rw [hk (scalarToString d) hd, hwild, hdrk]

theorem searchWinListeners_none_of_trivial (wl : WinListeners)
    (hk : ∀ k : String, k ≠ "" → k ≠ DOMAIN_REGEX_KEY → objGet wl k = none)
    (hdrk : objGet wl DOMAIN_REGEX_KEY = none ∨
      objGet wl DOMAIN_REGEX_KEY = some (.regexList []))
    (qd : Option ScalarDomain) (hq : queryDomainOk qd) :
    searchWinListeners wl qd = none := by
  have hwild : objGet wl WILDCARD = none := hk WILDCARD (by decide) (by decide)
  unfold searchWinListeners
  cases qd with
  | none =>
    rw [hwild]
    rcases hdrk with h | h <;> rw [h]
  | some d =>
    by_cases hd : scalarToString d = ""
    · simp only [hd, ne_eq, not_true_eq_false, if_false]
      rw [hwild]
      rcases hdrk with h | h <;> simp [h]
    · simp only [ne_eq, hd, not_false_eq_true, if_true]
      rw [hk (scalarToString d) hd (hq d rfl), hwild]
      rcases hdrk with h | h <;> simp [h]

theorem searchWinListeners_shell (wl : WinListeners)
    (hdrk : objGet wl DOMAIN_REGEX_KEY = none)
    (qd : Option ScalarDomain) (hq : queryDomainOk qd) :
    searchWinListeners (wl ++ [(DOMAIN_REGEX_KEY, .regexList [])]) qd =
      searchWinListeners wl qd := by
  have hget : ∀ k : String, k ≠ DOMAIN_REGEX_KEY →
      objGet (wl ++ [(DOMAIN_REGEX_KEY, WinVal.regexList [])]) k = objGet wl k := by
    intro k hkne
    rw [objGet_append]
    cases hg : objGet wl k with
    | some v => rfl
    | none =>
      simp only [objGet, beq_iff_eq]
      rw [if_neg (fun he => hkne he.symm)]
  have hdrkL : objGet (wl ++ [(DOMAIN_REGEX_KEY, WinVal.regexList [])]) DOMAIN_REGEX_KEY =
      some (.regexList []) := by
    rw [objGet_append, hdrk]
    simp [objGet]
  have hwild : objGet (wl ++ [(DOMAIN_REGEX_KEY, WinVal.regexList [])]) WILDCARD =
      objGet wl WILDCARD := hget WILDCARD (by decide)
  unfold searchWinListeners
  cases qd with
  | none =>
    rw [hwild, hdrkL, hdrk]
  | some d =>
    by_cases hd : scalarToString d = ""
    · simp only [hd, ne_eq, not_true_eq_false, if_false]
      rw [hwild, hdrkL, hdrk]
      simp
    · simp only [ne_eq, hd, not_false_eq_true, if_true]
      rw [hget (scalarToString d) (hq d rfl), hwild, hdrkL, hdrk]
      simp

theorem lookupNL_none_eq_nil (qwin : Option WinKey) (qd : Option ScalarDomain) :
    lookupNameListeners (some []) qwin qd = lookupNameListeners none qwin qd := by
  cases qwin <;> rfl

theorem matchDomain_regex_regex (a : String) (ta : String → Bool) (b : String)
    (tb : String → Bool) : matchDomain (.regex a ta) (.regex b tb) = (a == b) := by
  rw [matchDomain.eq_def]

theorem queryDomainOk_normalize (qd : Option ScalarDomain) (h : queryDomainOk qd) :
    queryDomainOk (normalizeQueryDomain qd) := by
  intro d hd
  cases qd with
  | none => simp [normalizeQueryDomain] at hd
  | some d0 =>
    cases d0 with
    | str s =>
      by_cases hs : s = WILDCARD
      · simp [normalizeQueryDomain, hs] at hd
      · simp only [normalizeQueryDomain, hs, if_false, Option.some.injEq] at hd
        exact hd ▸ h (.str s) rfl
    | regex src t =>
      simp only [normalizeQueryDomain, Option.some.injEq] at hd
      exact hd ▸ h (.regex src t) rfl

/-- If a `searchWinListeners` pass came up empty, its literal-key probe did. -/
theorem swl_none_literal (wl0 : WinListeners) (d : ScalarDomain)
    (hs : searchWinListeners wl0 (some d) = none) (hd : scalarToString d ≠ "") :
    objGet wl0 (scalarToString d) = none := by
  unfold searchWinListeners at hs
  simp only [ne_eq, hd, not_false_eq_true, if_true] at hs
  cases hg : objGet wl0 (scalarToString d) with
  | none => rfl
  | some v => rw [hg] at hs; exact absurd hs (by simp)

/-- If a `searchWinListeners` pass came up empty, its `*`-key probe did. -/
theorem swl_none_wildcard (wl0 : WinListeners) (qd : Option ScalarDomain)
    (hs : searchWinListeners wl0 qd = none) : objGet wl0 WILDCARD = none := by
  unfold searchWinListeners at hs
  cases qd with
  | none =>
    cases hg : objGet wl0 WILDCARD with
    | none => rfl
    | some v => rw [hg] at hs; exact absurd hs (by simp)
  | some d =>
    by_cases hd : scalarToString d = ""
    · simp only [hd, ne_eq, not_true_eq_false, if_false] at hs
      cases hg : objGet wl0 WILDCARD with
      | none => rfl
      | some v => rw [hg] at hs; exact absurd hs (by simp)
    · simp only [ne_eq, hd, not_false_eq_true, if_true] at hs
      cases hlit : objGet wl0 (scalarToString d) with
      | some v => rw [hlit] at hs; exact absurd hs (by simp)
      | none =>
        rw [hlit] at hs
        cases hg : objGet wl0 WILDCARD with
        | none => rfl
        | some v => rw [hg] at hs; exact absurd hs (by simp)

/-- If a regex-domain `searchWinListeners` pass came up empty, no stored
regex entry shares the queried regex's source. -/
theorem swl_none_bucket (wl0 : WinListeners) (src : String) (t : String → Bool)
    (hs : searchWinListeners wl0 (some (.regex src t)) = none)
    (l0 : List RegexEntry) (hb : objGet wl0 DOMAIN_REGEX_KEY = some (.regexList l0)) :
    ∀ e' ∈ l0, (e'.source == src) = false := by
  intro e' he'
  have hres : l0.find? (fun e => matchDomain (.regex e.source e.test)
      (scalarToPattern (.regex src t))) = none := by
    unfold searchWinListeners at hs
    by_cases hd : scalarToString (ScalarDomain.regex src t) = ""
    · simp only [hd, ne_eq, not_true_eq_false, if_false] at hs
      cases hw : objGet wl0 WILDCARD with
      | some v => rw [hw] at hs; exact absurd hs (by simp)
      | none =>
        rw [hw, hb] at hs
        have hs2 : Option.map (fun e => WinVal.listener e.listenerId)
            (l0.find? (fun e => matchDomain (.regex e.source e.test)
              (scalarToPattern (.regex src t)))) = none := hs
        cases hf : l0.find? (fun e => matchDomain (.regex e.source e.test)
            (scalarToPattern (.regex src t))) with
        | some e => rw [hf] at hs2; exact absurd hs2 (by simp)
        | none => rfl
    · simp only [ne_eq, hd, not_false_eq_true, if_true] at hs
      cases hlit : objGet wl0 (scalarToString (ScalarDomain.regex src t)) with
      | some v => rw [hlit] at hs; exact absurd hs (by simp)
      | none =>
        rw [hlit] at hs
        cases hw : objGet wl0 WILDCARD with
        | some v => rw [hw] at hs; exact absurd hs (by simp)
        | none =>
          rw [hw, hb] at hs
          have hs2 : Option.map (fun e => WinVal.listener e.listenerId)
              (l0.find? (fun e => matchDomain (.regex e.source e.test)
                (scalarToPattern (.regex src t)))) = none := hs
          cases hf : l0.find? (fun e => matchDomain (.regex e.source e.test)
              (scalarToPattern (.regex src t))) with
          | some e => rw [hf] at hs2; exact absurd hs2 (by simp)
          | none => rfl
  have hne := List.find?_eq_none.mp hres e' he'
  simpa [scalarToPattern, matchDomain_regex_regex] using hne

/-- A failed `getRequestListener` existence check means the registered key's
own `winListeners` search (at the defaulted window qualifier) found
nothing. -/
theorem existing_none_search (rl : RequestListeners) (name : String) (win : Option WinKey)
    (domain : Option ScalarDomain)
    (nl0 : NameListeners) (hnl : objGet rl name = some nl0)
    (winKey : WinKey)
    (hwk : winKey = (match win with | none => WinKey.windowWildcard | some w => w))
    (wl0 : WinListeners) (hwl : objGet nl0 winKey = some wl0)
    (hex : getRequestListener rl name win domain = none) :
    searchWinListeners wl0 (normalizeQueryDomain domain) = none := by
  subst hwk
  have hex' : lookupNLBody nl0 win (normalizeQueryDomain domain) = none := by
    rw [getRequestListener, hnl] at hex
    exact hex
  unfold lookupNLBody at hex'
  cases win with
  | some w =>
    have hfw : lookupFromWin nl0 (some w) (normalizeQueryDomain domain) =
        searchWinListeners wl0 (normalizeQueryDomain domain) := by
      simp only [lookupFromWin]
      rw [hwl]
    rw [hfw] at hex'
    cases hsw : searchWinListeners wl0 (normalizeQueryDomain domain) with
    | none => rfl
    | some v => rw [hsw] at hex'; exact absurd hex' (by simp)
  | none =>
    have hfw : lookupFromWin nl0 none (normalizeQueryDomain domain) = none := rfl
    rw [hfw] at hex'
    have hex'' : (match objGet nl0 WinKey.windowWildcard with
        | some wl => searchWinListeners wl (normalizeQueryDomain domain)
        | none => none) = none := hex'
    rw [hwl] at hex''
    exact hex''

theorem lookupNL_set (nl0 : NameListeners) (winKey : WinKey) (wl0 wlF : WinListeners)
    (hw : objGet nl0 winKey = some wl0)
    (hswl : ∀ qd, queryDomainOk qd → searchWinListeners wlF qd = searchWinListeners wl0 qd)
    (qwin : Option WinKey) (qd : Option ScalarDomain) (hq : queryDomainOk qd) :
    lookupNameListeners (some (objSet nl0 winKey wlF)) qwin qd =
      lookupNameListeners (some nl0) qwin qd := by
  show lookupNLBody (objSet nl0 winKey wlF) qwin qd = lookupNLBody nl0 qwin qd
  have hwildcase :
      (match objGet (objSet nl0 winKey wlF) WinKey.windowWildcard with
        | some wl => searchWinListeners wl qd
        | none => none) =
      (match objGet nl0 WinKey.windowWildcard with
        | some wl => searchWinListeners wl qd
        | none => none) := by
    by_cases hwk : winKey = WinKey.windowWildcard
    · subst hwk
      rw [objGet_objSet, hw]
      exact hswl qd hq
    · rw [objGet_objSet_ne nl0 winKey WinKey.windowWildcard wlF hwk]
  have hfw : lookupFromWin (objSet nl0 winKey wlF) qwin qd = lookupFromWin nl0 qwin qd := by
    cases qwin with
    | none => rfl
    | some w =>
      simp only [lookupFromWin]
      by_cases hww : w = winKey
      · subst hww
        rw [objGet_objSet, hw]
        exact hswl qd hq
      · rw [objGet_objSet_ne nl0 winKey w wlF (fun he => hww he.symm)]
  unfold lookupNLBody
  rw [hfw]
  cases hres : lookupFromWin nl0 qwin qd with
  | some v => rfl
  | none => exact hwildcase

theorem lookupNL_set_fresh (nl0 : NameListeners) (winKey : WinKey) (wlF : WinListeners)
    (hw : objGet nl0 winKey = none)
    (hswl : ∀ qd, queryDomainOk qd → searchWinListeners wlF qd = none)
    (qwin : Option WinKey) (qd : Option ScalarDomain) (hq : queryDomainOk qd) :
    lookupNameListeners (some (objSet nl0 winKey wlF)) qwin qd =
      lookupNameListeners (some nl0) qwin qd := by
  show lookupNLBody (objSet nl0 winKey wlF) qwin qd = lookupNLBody nl0 qwin qd
  have hwildcase :
      (match objGet (objSet nl0 winKey wlF) WinKey.windowWildcard with
        | some wl => searchWinListeners wl qd
        | none => none) =
      (match objGet nl0 WinKey.windowWildcard with
        | some wl => searchWinListeners wl qd
        | none => none) := by
    by_cases hwk : winKey = WinKey.windowWildcard
    · subst hwk
      rw [objGet_objSet, hw]
      exact hswl qd hq
    · rw [objGet_objSet_ne nl0 winKey WinKey.windowWildcard wlF hwk]
  have hfw : lookupFromWin (objSet nl0 winKey wlF) qwin qd = lookupFromWin nl0 qwin qd := by
    cases qwin with
    | none => rfl
    | some w =>
      simp only [lookupFromWin]
      by_cases hww : w = winKey
      · subst hww
        rw [objGet_objSet, hw]
        exact hswl qd hq
      · rw [objGet_objSet_ne nl0 winKey w wlF (fun he => hww he.symm)]
  unfold lookupNLBody
  rw [hfw]
  cases hres : lookupFromWin nl0 qwin qd with
  | some v => rfl
  | none => exact hwildcase

theorem lookupNL_del (nl0 : NameListeners) (winKey : WinKey) (wl0 : WinListeners)
    (hnd : (nl0.map Prod.fst).Nodup)
    (hw : objGet nl0 winKey = some wl0)
    (hswl : ∀ qd, queryDomainOk qd → searchWinListeners wl0 qd = none)
    (qwin : Option WinKey) (qd : Option ScalarDomain) (hq : queryDomainOk qd) :
    lookupNameListeners (some (objDelete nl0 winKey)) qwin qd =
      lookupNameListeners (some nl0) qwin qd := by
  show lookupNLBody (objDelete nl0 winKey) qwin qd = lookupNLBody nl0 qwin qd
  have hself : objGet (objDelete nl0 winKey) winKey = none :=
    objGet_objDelete_self_of_nodup nl0 winKey hnd
  have hwildcase :
      (match objGet (objDelete nl0 winKey) WinKey.windowWildcard with
        | some wl => searchWinListeners wl qd
        | none => none) =
      (match objGet nl0 WinKey.windowWildcard with
        | some wl => searchWinListeners wl qd
        | none => none) := by
    by_cases hwk : winKey = WinKey.windowWildcard
    · rw [← hwk, hself, hw]
      exact (hswl qd hq).symm
    · rw [objGet_objDelete_ne nl0 winKey WinKey.windowWildcard hwk]
  have hfw : lookupFromWin (objDelete nl0 winKey) qwin qd = lookupFromWin nl0 qwin qd := by
    cases qwin with
    | none => rfl
    | some w =>
      simp only [lookupFromWin]
      by_cases hww : w = winKey
      · subst hww
        rw [hself, hw]
        exact (hswl qd hq).symm
      · rw [objGet_objDelete_ne nl0 winKey w (fun he => hww he.symm)]
  unfold lookupNLBody
  rw [hfw]
  cases hres : lookupFromWin nl0 qwin qd with
  | some v => rfl
  | none => exact hwildcase

/-! ## Cancel-closure lemmas for `addRequestListener` -/

/-- Unfolding of the cancel closure when the captured path exists and no
regex entry was pushed. -/
theorem cancel_found_none (rl : RequestListeners) (name : String) (winKey : WinKey)
    (s : String) (nl1 : NameListeners) (wl1 : WinListeners)
    (hN : objGet rl name = some nl1) (hW : objGet nl1 winKey = some wl1) :
    cancelRequestListener rl ⟨name, winKey, s, none⟩ =
      (if (objDelete wl1 s).length = 0 then
        objSet rl name (objDelete nl1 winKey)
      else
        objSet rl name (objSet nl1 winKey (objDelete wl1 s))) := by
  simp only [cancelRequestListener, hN, hW]

/-- Unfolding of the cancel closure when the captured path exists, a regex
entry was pushed, deleting the literal key leaves the object non-empty, and
the regex array is still present. -/
theorem cancel_found_regex (rl : RequestListeners) (name : String) (winKey : WinKey)
    (s : String) (e : RegexEntry) (nl1 : NameListeners) (wl1 : WinListeners)
    (l : List RegexEntry)
    (hN : objGet rl name = some nl1) (hW : objGet nl1 winKey = some wl1)
    (hB : objGet (objDelete wl1 s) DOMAIN_REGEX_KEY = some (WinVal.regexList l))
    (hlen : ¬(objDelete wl1 s).length = 0) :
    cancelRequestListener rl ⟨name, winKey, s, some e⟩ =
      objSet rl name (objSet nl1 winKey (objSet (objDelete wl1 s) DOMAIN_REGEX_KEY
        (WinVal.regexList (jsSpliceFrom l (jsIndexOfFrom l e 1))))) := by
  simp only [cancelRequestListener, hN, hW, hB, if_neg hlen]

/-- An `objSet` at one name whose entry is lookup-equivalent to the original
entry leaves every `getRequestListener` query unchanged. -/
theorem getRL_objSet_equiv (rl : RequestListeners) (name : String)
    (nl0 nlF : NameListeners)
    (hnl0 : nl0 = (objGet rl name).getD [])
    (hlnl : ∀ (qwin : Option WinKey) (qd : Option ScalarDomain), queryDomainOk qd →
      lookupNameListeners (some nlF) qwin qd = lookupNameListeners (some nl0) qwin qd)
    (qname : String) (qwin : Option WinKey) (qdomain : Option ScalarDomain)
    (hq : queryDomainOk qdomain) :
    getRequestListener (objSet rl name nlF) qname qwin qdomain =
      getRequestListener rl qname qwin qdomain := by
  subst hnl0
  unfold getRequestListener
  by_cases hqn : qname = name
  · subst hqn
    rw [objGet_objSet]
    rw [hlnl qwin (normalizeQueryDomain qdomain) (queryDomainOk_normalize qdomain hq)]
    cases hnl : objGet rl qname with
    | none => exact lookupNL_none_eq_nil qwin (normalizeQueryDomain qdomain)
    | some nlv => rfl
  · rw [objGet_objSet_ne rl name qname nlF (fun he => hqn he.symm)]

/-- Cancelling a just-registered string-domain listener produces an `objSet`
of the original table at the registered name whose entry is
lookup-equivalent to the original entry, provided the stored key was not
already bound (or is the invisible `""`). -/
theorem cancel_after_register_str (rl : RequestListeners) (name : String)
    (winKey : WinKey) (s : String) (listenerId : Nat)
    (nl0 : NameListeners) (wl0 : WinListeners)
    (_hnl0 : nl0 = (objGet rl name).getD [])
    (hwl0 : wl0 = (objGet nl0 winKey).getD [])
    (hnd0 : (nl0.map Prod.fst).Nodup)
    (hKey : objGet wl0 s = none ∨ s = "") :
    ∃ nlF : NameListeners,
      cancelRequestListener
          (objSet rl name (objSet nl0 winKey (objSet wl0 s (WinVal.listener listenerId))))
          ⟨name, winKey, s, none⟩ =
        objSet rl name nlF ∧
      ∀ (qwin : Option WinKey) (qd : Option ScalarDomain), queryDomainOk qd →
        lookupNameListeners (some nlF) qwin qd = lookupNameListeners (some nl0) qwin qd := by
  set L := WinVal.listener listenerId with hL
  set wl1 := objSet wl0 s L with hwl1def
  set nl1 := objSet nl0 winKey wl1 with hnl1def
  set T := objSet rl name nl1 with hTdef
  have hN : objGet T name = some nl1 := by
    rw [hTdef]
    exact objGet_objSet rl name nl1
  have hW : objGet nl1 winKey = some wl1 := by
    rw [hnl1def]
    exact objGet_objSet nl0 winKey wl1
  have hC := cancel_found_none T name winKey s nl1 wl1 hN hW
  rw [hwl1def, objDelete_objSet wl0 s L] at hC
  by_cases hdel : (objDelete wl0 s).length = 0
  · rw [if_pos hdel, hnl1def, objDelete_objSet nl0 winKey wl1, hTdef,
      objSet_objSet rl name] at hC
    refine ⟨objDelete nl0 winKey, hC, ?_⟩
    intro qwin qd hq
    have hnil : objDelete wl0 s = [] := List.length_eq_zero.mp hdel
    cases hg : objGet nl0 winKey with
    | none =>
      rw [objDelete_of_get_none nl0 winKey hg]
    | some w =>
      have hwl : objGet nl0 winKey = some wl0 := by rw [hwl0, hg]; rfl
      rcases objDelete_eq_nil_cases wl0 s hnil with h0 | ⟨vold, hv⟩
      · refine lookupNL_del nl0 winKey wl0 hnd0 hwl (fun qd2 hq2 => ?_) qwin qd hq
        rw [h0]
        exact searchWinListeners_none_of_trivial [] (fun k hk1 hk2 => rfl) (Or.inl rfl) qd2 hq2
      · have hget : objGet wl0 s = some vold := by
          rw [hv]
          simp [objGet]
        have hs0 : s = "" := by
          rcases hKey with h | h
          · rw [hget] at h
            exact absurd h (by simp)
          · exact h
        refine lookupNL_del nl0 winKey wl0 hnd0 hwl (fun qd2 hq2 => ?_) qwin qd hq
        rw [hv, hs0]
        refine searchWinListeners_none_of_trivial [("", vold)] (fun k hk1 hk2 => ?_)
          (Or.inl ?_) qd2 hq2
        · have hk1f : (("" : String) == k) = false :=
            beq_eq_false_iff_ne.mpr (fun he => hk1 he.symm)
          simp [objGet, hk1f]
        · have hdf : (("" : String) == DOMAIN_REGEX_KEY) = false := by decide
          simp [objGet, hdf]
  · rw [if_neg hdel, hnl1def, objSet_objSet nl0 winKey, hTdef, objSet_objSet rl name] at hC
    refine ⟨objSet nl0 winKey (objDelete wl0 s), hC, ?_⟩
    intro qwin qd hq
    rcases hKey with hnone | hsEmpty
    · have hDel : objDelete wl0 s = wl0 := objDelete_of_get_none wl0 s hnone
      rw [hDel]
      cases hg : objGet nl0 winKey with
      | none =>
        have h0 : wl0 = [] := by rw [hwl0, hg]; rfl
        exact absurd (by rw [hDel, h0]; rfl : (objDelete wl0 s).length = 0) hdel
      | some w =>
        have hwl : objGet nl0 winKey = some wl0 := by rw [hwl0, hg]; rfl
        rw [objSet_same nl0 winKey wl0 hwl]
    · cases hg : objGet nl0 winKey with
      | none =>
        have h0 : wl0 = [] := by rw [hwl0, hg]; rfl
        exact absurd (by rw [h0]; rfl : (objDelete wl0 s).length = 0) hdel
      | some w =>
        have hwl : objGet nl0 winKey = some wl0 := by rw [hwl0, hg]; rfl
        refine lookupNL_set nl0 winKey wl0 (objDelete wl0 s) hwl (fun qd2 hq2 => ?_) qwin qd hq
        refine searchWinListeners_congr (objDelete wl0 s) wl0 (fun k hk0 => ?_) qd2
        rw [objGet_objDelete_ne wl0 s k (fun he => hk0 (he.symm.trans hsEmpty))]

/-- Cancelling a just-registered regex-domain listener, when the per-window
regex array already existed, removes exactly the pushed entry and the stored
source key: the resulting name entry is lookup-equivalent to the original
one. -/
theorem cancel_after_register_regex_found (rl : RequestListeners) (name : String)
    (winKey : WinKey) (src : String) (test : String → Bool) (listenerId : Nat)
    (nl0 : NameListeners) (wl0 : WinListeners) (l0 : List RegexEntry)
    (_hnl0 : nl0 = (objGet rl name).getD [])
    (hwl0 : wl0 = (objGet nl0 winKey).getD [])
    (hDRK1 : objGet (objSet wl0 src (WinVal.listener listenerId)) DOMAIN_REGEX_KEY =
      some (WinVal.regexList l0))
    (hKey : objGet wl0 src = none ∨ src = "")
    (hfreshSrc : ∀ e2 ∈ l0, (e2.source == src) = false) :
    ∃ nlF : NameListeners,
      cancelRequestListener
          (objSet rl name (objSet nl0 winKey
            (objSet (objSet wl0 src (WinVal.listener listenerId)) DOMAIN_REGEX_KEY
              (WinVal.regexList (l0 ++ [(⟨src, test, listenerId⟩ : RegexEntry)])))))
          ⟨name, winKey, src, some (⟨src, test, listenerId⟩ : RegexEntry)⟩ =
        objSet rl name nlF ∧
      ∀ (qwin : Option WinKey) (qd : Option ScalarDomain), queryDomainOk qd →
        lookupNameListeners (some nlF) qwin qd = lookupNameListeners (some nl0) qwin qd := by
  set L := WinVal.listener listenerId with hL
  set e := (⟨src, test, listenerId⟩ : RegexEntry) with he
  set wl1 := objSet wl0 src L with hwl1def
  set wl2 := objSet wl1 DOMAIN_REGEX_KEY (WinVal.regexList (l0 ++ [e])) with hwl2def
  set nl1 := objSet nl0 winKey wl2 with hnl1def
  set T := objSet rl name nl1 with hTdef
  have hsrcD : src ≠ DOMAIN_REGEX_KEY := by
    intro h
    rw [hwl1def, h, objGet_objSet wl0 DOMAIN_REGEX_KEY L, hL] at hDRK1
    exact absurd hDRK1 (by simp)
  have hDRK0 : objGet wl0 DOMAIN_REGEX_KEY = some (WinVal.regexList l0) := by
    rw [← objGet_objSet_ne wl0 src DOMAIN_REGEX_KEY L hsrcD, ← hwl1def]
    exact hDRK1
  have hwl0ne : wl0 ≠ [] := objGet_some_ne_nil wl0 DOMAIN_REGEX_KEY (WinVal.regexList l0) hDRK0
  have hwl : objGet nl0 winKey = some wl0 := by
    cases hg : objGet nl0 winKey with
    | none => exact absurd (by rw [hwl0, hg]; rfl : wl0 = []) hwl0ne
    | some w => rw [hwl0, hg]; rfl
  have hN : objGet T name = some nl1 := by
    rw [hTdef]
    exact objGet_objSet rl name nl1
  have hW : objGet nl1 winKey = some wl2 := by
    rw [hnl1def]
    exact objGet_objSet nl0 winKey wl2
  have hbucket : objGet (objDelete wl2 src) DOMAIN_REGEX_KEY =
      some (WinVal.regexList (l0 ++ [e])) := by
    rw [objGet_objDelete_ne wl2 src DOMAIN_REGEX_KEY hsrcD, hwl2def,
      objGet_objSet wl1 DOMAIN_REGEX_KEY (WinVal.regexList (l0 ++ [e]))]
  have hdelne : objDelete wl2 src ≠ [] :=
    objGet_some_ne_nil (objDelete wl2 src) DOMAIN_REGEX_KEY (WinVal.regexList (l0 ++ [e]))
      hbucket
  have hlen : ¬(objDelete wl2 src).length = 0 := fun h =>
    hdelne (List.length_eq_zero.mp h)
  have hC := cancel_found_regex T name winKey src e nl1 wl2 (l0 ++ [e]) hN hW hbucket hlen
  have hfresh2 : ∀ e2 ∈ l0, regexEntryIs e2 e = false := by
    intro e2 he2
    rw [he]
    simp [regexEntryIs, hfreshSrc e2 he2]
  rw [spliceRestore l0 e hfresh2, hnl1def, objSet_objSet nl0 winKey, hTdef,
    objSet_objSet rl name] at hC
  refine ⟨objSet nl0 winKey (objSet (objDelete wl2 src) DOMAIN_REGEX_KEY
    (WinVal.regexList l0)), hC, ?_⟩
  intro qwin qd hq
  refine lookupNL_set nl0 winKey wl0 (objSet (objDelete wl2 src) DOMAIN_REGEX_KEY
    (WinVal.regexList l0)) hwl (fun qd2 hq2 => ?_) qwin qd hq
  refine searchWinListeners_congr (objSet (objDelete wl2 src) DOMAIN_REGEX_KEY
    (WinVal.regexList l0)) wl0 (fun k hk0 => ?_) qd2
  by_cases hkd : k = DOMAIN_REGEX_KEY
  · subst hkd
    rw [objGet_objSet (objDelete wl2 src) DOMAIN_REGEX_KEY (WinVal.regexList l0), hDRK0]
  · rw [objGet_objSet_ne (objDelete wl2 src) DOMAIN_REGEX_KEY k (WinVal.regexList l0)
      (fun he2 => hkd he2.symm)]
    rcases hKey with hsrcNone | hsrcEmpty
    · by_cases hks : k = src
      · rw [hks]
        have hwl2app : wl2 = objSet wl0 DOMAIN_REGEX_KEY (WinVal.regexList (l0 ++ [e]))
            ++ [(src, L)] := by
          rw [hwl2def, hwl1def, objSet_eq_append wl0 src L hsrcNone,
            objSet_append_inplace wl0 [(src, L)] DOMAIN_REGEX_KEY (WinVal.regexList l0)
              (WinVal.regexList (l0 ++ [e])) hDRK0]
        have hsrcOuter : objGet (objSet wl0 DOMAIN_REGEX_KEY
            (WinVal.regexList (l0 ++ [e]))) src = none := by
          rw [objGet_objSet_ne wl0 DOMAIN_REGEX_KEY src (WinVal.regexList (l0 ++ [e]))
            (fun he2 => hsrcD he2.symm)]
          exact hsrcNone
        rw [hwl2app, objDelete_append_fresh (objSet wl0 DOMAIN_REGEX_KEY
          (WinVal.regexList (l0 ++ [e]))) src L hsrcOuter, hsrcOuter, hsrcNone]
      · rw [objGet_objDelete_ne wl2 src k (fun he2 => hks he2.symm), hwl2def,
          objGet_objSet_ne wl1 DOMAIN_REGEX_KEY k (WinVal.regexList (l0 ++ [e]))
            (fun he2 => hkd he2.symm), hwl1def,
          objGet_objSet_ne wl0 src k L (fun he2 => hks he2.symm)]
    · have hsk : src ≠ k := fun he2 => hk0 (he2.symm.trans hsrcEmpty)
      rw [objGet_objDelete_ne wl2 src k hsk, hwl2def,
        objGet_objSet_ne wl1 DOMAIN_REGEX_KEY k (WinVal.regexList (l0 ++ [e]))
          (fun he2 => hkd he2.symm), hwl1def,
        objGet_objSet_ne wl0 src k L hsk]

/-- Cancelling a just-registered regex-domain listener, when the regex array
was created by this registration, leaves an empty regex array and removes the
stored source key: the resulting name entry is lookup-equivalent to the
original one. -/
theorem cancel_after_register_regex_fresh (rl : RequestListeners) (name : String)
    (winKey : WinKey) (src : String) (test : String → Bool) (listenerId : Nat)
    (nl0 : NameListeners) (wl0 : WinListeners)
    (_hnl0 : nl0 = (objGet rl name).getD [])
    (hwl0 : wl0 = (objGet nl0 winKey).getD [])
    (hDRK1 : objGet (objSet wl0 src (WinVal.listener listenerId)) DOMAIN_REGEX_KEY = none)
    (hKey : objGet wl0 src = none ∨ src = "") :
    ∃ nlF : NameListeners,
      cancelRequestListener
          (objSet rl name (objSet nl0 winKey
            (objSet (objSet wl0 src (WinVal.listener listenerId)) DOMAIN_REGEX_KEY
              (WinVal.regexList [(⟨src, test, listenerId⟩ : RegexEntry)]))))
          ⟨name, winKey, src, some (⟨src, test, listenerId⟩ : RegexEntry)⟩ =
        objSet rl name nlF ∧
      ∀ (qwin : Option WinKey) (qd : Option ScalarDomain), queryDomainOk qd →
        lookupNameListeners (some nlF) qwin qd = lookupNameListeners (some nl0) qwin qd := by
  set L := WinVal.listener listenerId with hL
  set e := (⟨src, test, listenerId⟩ : RegexEntry) with he
  set wl1 := objSet wl0 src L with hwl1def
  set wl2 := objSet wl1 DOMAIN_REGEX_KEY (WinVal.regexList [e]) with hwl2def
  set nl1 := objSet nl0 winKey wl2 with hnl1def
  set T := objSet rl name nl1 with hTdef
  have hsrcD : src ≠ DOMAIN_REGEX_KEY := by
    intro h
    rw [hwl1def, h, objGet_objSet wl0 DOMAIN_REGEX_KEY L] at hDRK1
    exact absurd hDRK1 (by simp)
  have hDRK0 : objGet wl0 DOMAIN_REGEX_KEY = none := by
    rw [← objGet_objSet_ne wl0 src DOMAIN_REGEX_KEY L hsrcD, ← hwl1def]
    exact hDRK1
  have hN : objGet T name = some nl1 := by
    rw [hTdef]
    exact objGet_objSet rl name nl1
  have hW : objGet nl1 winKey = some wl2 := by
    rw [hnl1def]
    exact objGet_objSet nl0 winKey wl2
  have hbucket : objGet (objDelete wl2 src) DOMAIN_REGEX_KEY =
      some (WinVal.regexList [e]) := by
    rw [objGet_objDelete_ne wl2 src DOMAIN_REGEX_KEY hsrcD, hwl2def,
      objGet_objSet wl1 DOMAIN_REGEX_KEY (WinVal.regexList [e])]
  have hdelne : objDelete wl2 src ≠ [] :=
    objGet_some_ne_nil (objDelete wl2 src) DOMAIN_REGEX_KEY (WinVal.regexList [e]) hbucket
  have hlen : ¬(objDelete wl2 src).length = 0 := fun h =>
    hdelne (List.length_eq_zero.mp h)
  have hC := cancel_found_regex T name winKey src e nl1 wl2 [e] hN hW hbucket hlen
  have hsplice : jsSpliceFrom [e] (jsIndexOfFrom [e] e 1) = ([] : List RegexEntry) :=
    spliceRestore [] e (by simp)
  rw [hsplice, hnl1def, objSet_objSet nl0 winKey, hTdef, objSet_objSet rl name] at hC
  refine ⟨objSet nl0 winKey (objSet (objDelete wl2 src) DOMAIN_REGEX_KEY
    (WinVal.regexList [])), hC, ?_⟩
  intro qwin qd hq
  rcases hKey with hsrcNone | hsrcEmpty
  · have hwl1app : wl1 = wl0 ++ [(src, L)] := by
      rw [hwl1def]
      exact objSet_eq_append wl0 src L hsrcNone
    have hwl2app : wl2 = wl0 ++ [(src, L)] ++ [(DOMAIN_REGEX_KEY, WinVal.regexList [e])] := by
      rw [hwl2def, hwl1app]
      exact objSet_eq_append (wl0 ++ [(src, L)]) DOMAIN_REGEX_KEY (WinVal.regexList [e])
        (by rw [← hwl1app]; exact hDRK1)
    have hdel : objDelete wl2 src = wl0 ++ [(DOMAIN_REGEX_KEY, WinVal.regexList [e])] := by
      rw [hwl2app, List.append_assoc, objDelete_append_of_get_none wl0
        ([(src, L)] ++ [(DOMAIN_REGEX_KEY, WinVal.regexList [e])]) src hsrcNone]
      congr 1
      simp [objDelete]
    have hwlF : objSet (objDelete wl2 src) DOMAIN_REGEX_KEY (WinVal.regexList []) =
        wl0 ++ [(DOMAIN_REGEX_KEY, WinVal.regexList [])] := by
      rw [hdel, objSet_append_right wl0 [(DOMAIN_REGEX_KEY, WinVal.regexList [e])]
        DOMAIN_REGEX_KEY (WinVal.regexList []) hDRK0]
      congr 1
    rw [hwlF]
    cases hg : objGet nl0 winKey with
    | some w =>
      have hwl : objGet nl0 winKey = some wl0 := by rw [hwl0, hg]; rfl
      exact lookupNL_set nl0 winKey wl0 (wl0 ++ [(DOMAIN_REGEX_KEY, WinVal.regexList [])]) hwl
        (fun qd2 hq2 => searchWinListeners_shell wl0 hDRK0 qd2 hq2) qwin qd hq
    | none =>
      have h0 : wl0 = [] := by rw [hwl0, hg]; rfl
      refine lookupNL_set_fresh nl0 winKey
        (wl0 ++ [(DOMAIN_REGEX_KEY, WinVal.regexList [])]) hg (fun qd2 hq2 => ?_) qwin qd hq
      rw [h0]
      refine searchWinListeners_none_of_trivial
        ([] ++ [(DOMAIN_REGEX_KEY, WinVal.regexList [])]) (fun k hk1 hk2 => ?_)
        (Or.inr ?_) qd2 hq2
      · have hk2f : (DOMAIN_REGEX_KEY == k) = false :=
          beq_eq_false_iff_ne.mpr (fun he2 => hk2 he2.symm)
        simp [objGet, hk2f]
      · simp [objGet]
  · have hsk : ∀ k : String, k ≠ "" → src ≠ k := fun k hk0 he2 =>
      hk0 (he2.symm.trans hsrcEmpty)
    have hget1 : objGet wl1 src = some L := by
      rw [hwl1def]
      exact objGet_objSet wl0 src L
    have hdel : objDelete wl2 src =
        objDelete wl1 src ++ [(DOMAIN_REGEX_KEY, WinVal.regexList [e])] := by
      rw [hwl2def, objSet_eq_append wl1 DOMAIN_REGEX_KEY (WinVal.regexList [e]) hDRK1]
      exact objDelete_append_left wl1 [(DOMAIN_REGEX_KEY, WinVal.regexList [e])] src L hget1
    have hdel1DRK : objGet (objDelete wl1 src) DOMAIN_REGEX_KEY = none := by
      rw [objGet_objDelete_ne wl1 src DOMAIN_REGEX_KEY hsrcD]
      exact hDRK1
    have hwlF : objSet (objDelete wl2 src) DOMAIN_REGEX_KEY (WinVal.regexList []) =
        objDelete wl1 src ++ [(DOMAIN_REGEX_KEY, WinVal.regexList [])] := by
      rw [hdel, objSet_append_right (objDelete wl1 src)
        [(DOMAIN_REGEX_KEY, WinVal.regexList [e])] DOMAIN_REGEX_KEY (WinVal.regexList [])
        hdel1DRK]
      congr 1
    rw [hwlF]
    have hcongr : ∀ (qd2 : Option ScalarDomain), queryDomainOk qd2 →
        searchWinListeners (objDelete wl1 src ++ [(DOMAIN_REGEX_KEY, WinVal.regexList [])])
          qd2 = searchWinListeners wl0 qd2 := by
      intro qd2 hq2
      rw [searchWinListeners_shell (objDelete wl1 src) hdel1DRK qd2 hq2]
      refine searchWinListeners_congr (objDelete wl1 src) wl0 (fun k hk0 => ?_) qd2
      rw [objGet_objDelete_ne wl1 src k (hsk k hk0), hwl1def,
        objGet_objSet_ne wl0 src k L (hsk k hk0)]
    cases hg : objGet nl0 winKey with
    | some w =>
      have hwl : objGet nl0 winKey = some wl0 := by rw [hwl0, hg]; rfl
      exact lookupNL_set nl0 winKey wl0
        (objDelete wl1 src ++ [(DOMAIN_REGEX_KEY, WinVal.regexList [])]) hwl hcongr qwin qd hq
    | none =>
      have h0 : wl0 = [] := by rw [hwl0, hg]; rfl
      refine lookupNL_set_fresh nl0 winKey
        (objDelete wl1 src ++ [(DOMAIN_REGEX_KEY, WinVal.regexList [])]) hg
        (fun qd2 hq2 => ?_) qwin qd hq
      rw [hcongr qd2 hq2, h0]
      exact searchWinListeners_none_of_trivial [] (fun k hk1 hk2 => rfl) (Or.inl rfl) qd2 hq2

/-! ## Window-name split lemmas -/

theorem string_mk_toList (s : String) : String.mk s.toList = s := by
  cases s
  rfl

theorem string_toList_append (a b : String) : (a ++ b).toList = a.toList ++ b.toList := rfl

theorem noDoubleUnderscore_of_no_underscore (l : List Char) (h : ∀ c ∈ l, c ≠ '_') :
    noDoubleUnderscore l = true := by
  induction l with
  | nil => rfl
  | cons c rest ih =>
    cases rest with
    | nil => rfl
    | cons d rest' =>
      have hc : c ≠ '_' := h c (by simp)
      have htl := ih (fun x hx => h x (by simp [hx]))
      simp [noDoubleUnderscore, hc, htl]

theorem splitDU_no_double (l : List Char) : noDoubleUnderscore l = true → splitDU l = [l] := by
  induction l with
  | nil => intro _; rfl
  | cons c rest ih =>
    intro h
    cases rest with
    | nil => rfl
    | cons d rest' =>
      rw [noDoubleUnderscore] at h
      rw [Bool.and_eq_true] at h
      obtain ⟨hnd, htl⟩ := h
      rw [splitDU]
      rw [ih htl]
      simp only [Bool.not_eq_eq_eq_not, Bool.not_true] at hnd
      simp [hnd]

theorem splitDU_append_sep (p : List Char) :
    ∀ rest : List Char, goodPiece p = true →
      splitDU (p ++ '_' :: '_' :: rest) = p :: splitDU rest := by
  induction p with
  | nil =>
    intro rest _
    simp [splitDU]
  | cons c p' ih =>
    intro rest h
    cases p' with
    | nil =>
      have hc : c ≠ '_' := by
        simp [goodPiece] at h
        intro hceq
        simp [hceq] at h
      simp [splitDU, hc]
    | cons d p'' =>
      have hnd : (decide (c = '_') && decide (d = '_')) = false := by
        rw [goodPiece, Bool.and_eq_true] at h
        rw [noDoubleUnderscore, Bool.and_eq_true] at h
        have h11 := h.1.1
        rwa [Bool.not_eq_true'] at h11
      have hgp : goodPiece (d :: p'') = true := by
        rw [goodPiece, Bool.and_eq_true] at h ⊢
        rw [noDoubleUnderscore, Bool.and_eq_true] at h
        refine ⟨h.1.2, ?_⟩
        have hlast := h.2
        rwa [List.getLast?_cons_cons] at hlast
      have hrec := ih rest hgp
      rw [List.cons_append, List.cons_append]
      rw [splitDU]
      rw [List.cons_append] at hrec
      rw [hrec]
      simp [hnd]

/-- Every task of an all-incomplete list runs and yields its method. -/
theorem runPopOrder_all_incomplete {μ : Type} (l : List (CleanupTask μ))
    (h : ∀ t ∈ l, t.complete = false) :
    runPopOrder l = l.map (fun t => some t.method) := by
  induction l with
  | nil => rfl
  | cons hd tl ih =>
    have hhd : hd.complete = false := h hd (by simp)
    have htl : ∀ t ∈ tl, t.complete = false := fun t ht => h t (by simp [ht])
    simp [runPopOrder, runTask, hhd, ih htl]

/-! ## Claim theorems -/

/-- C7: `matchDomain(pattern, origin)` with a string origin: a string pattern
matches iff it is the wildcard `*` or equals the origin; a regex pattern
matches iff the regex engine accepts the origin; a list pattern matches iff
some element matches. In particular `matchDomain('*', o)` holds for every
string origin `o`, and `matchDomain(/^https:\/\/a\./, 'https://a.example')`
holds (that regex accepts exactly the strings with prefix `https://a.`). -/
theorem matchDomain_string_origin_spec :
    (∀ p o : String, matchDomain (.str p) (.str o) = (p == "*" || o == p)) ∧
    (∀ (src : String) (t : String → Bool) (o : String),
        matchDomain (.regex src t) (.str o) = t o) ∧
    (∀ (ps : List DomainPattern) (o : String),
        matchDomain (.list ps) (.str o) = ps.any (fun p => matchDomain p (.str o))) ∧
    (∀ o : String, matchDomain (.str "*") (.str o) = true) ∧
    matchDomain
      (.regex "/^https:\\/\\/a\\./" (fun o => "https://a.".toList.isPrefixOf o.toList))
      (.str "https://a.example") = true := by
  refine ⟨fun p o => matchDomain_str_str p o, fun src t o => matchDomain_regex_str src t o,
    matchDomain_list_str, fun o => by simp [WILDCARD], ?_⟩
  rw [matchDomain_regex_str]
  decide

/-- C8: `isWindowClosed` is total and conservative: a null handle is closed;
when reading `win.closed` throws, the window counts as closed — unless the
thrown error's message is the known benign rejection
`"Call was rejected by callee.\r\n"`, in which case the window is treated as
still alive. -/
theorem isWindowClosed_spec :
    (∀ allowMock : Bool, isWindowClosed none allowMock = true) ∧
    (∀ (w : WinHandle) (allowMock : Bool) (e : Option String),
        w.isCurrentWindow = false → w.closed = .thrown e →
        isWindowClosed (some w) allowMock =
          (if e = some BENIGN_REJECTION then false else true)) := by
  constructor
  · intro allowMock
    rfl
  · intro w allowMock e hcur hclosed
    simp only [isWindowClosed, hcur, hclosed, Bool.false_eq_true, if_false]
    match e with
    | none => simp
    | some msg =>
      by_cases hmsg : msg = BENIGN_REJECTION
      · simp [hmsg]
      · simp [hmsg, bne_iff_ne]

/-- C8 witness: a window whose `closed` read throws the benign rejection is
treated as still alive; a null window and a window throwing another message
are closed. -/
theorem isWindowClosed_spec_witness :
    isWindowClosed (some ⟨false, .thrown (some BENIGN_REJECTION), false, .ok false, .ok true,
      .ok true⟩) true = false ∧
    isWindowClosed (some ⟨false, .thrown (some "Permission denied"), false, .ok false, .ok true,
      .ok true⟩) true = true ∧
    isWindowClosed none true = true := by
  refine ⟨?_, ?_, isWindowClosed_spec.1 true⟩
  · have h := isWindowClosed_spec.2
      ⟨false, .thrown (some BENIGN_REJECTION), false, .ok false, .ok true, .ok true⟩
      true (some BENIGN_REJECTION) rfl rfl
    simpa using h
  · have h := isWindowClosed_spec.2
      ⟨false, .thrown (some "Permission denied"), false, .ok false, .ok true, .ok true⟩
      true (some "Permission denied") rfl rfl
    simpa using h

/-- C9 counterexample: a number `42` supplied for a prop declared
`type: 'string'` is *not* coerced to the string `"42"` — normalization
returns it unchanged and validation throws `Prop is not of type string` —
refuting the general coercion statement. -/
theorem prop_coercion_counterexample :
    normalizeProp "string" (.num (.int 42)) = .num (.int 42) ∧
    normalizeProp "string" (.num (.int 42)) ≠ .str "42" ∧
    validateProp "string" "amount" (.num (.int 42)) true none false =
      .error "Prop is not of type string: amount" := by
  refine ⟨rfl, ?_, rfl⟩
  decide

/-- C9 (amended): for a prop declared `type: 'number'`, a supplied string is
parsed base-10 by `parseInt`, so `'42'` normalizes to `42` and `'abc'`
normalizes to `NaN`, which validation rejects with `Prop is not a number`;
`boolean` props coerce any primitive with `Boolean`; but `string`-typed
props perform no coercion — a non-string primitive is left unchanged and
fails validation. -/
theorem prop_number_coercion_spec :
    normalizeProp "number" (.str "42") = .num (.int 42) ∧
    (∀ s : String, normalizeProp "number" (.str s) = .num (parseIntBase10 s)) ∧
    normalizeProp "number" (.str "abc") = .num .nan ∧
    (∀ (key : String) (req : Bool) (preq : Option Bool) (hdef : Bool),
        validateProp "number" key (.num .nan) req preq hdef =
          .error ("Prop is not a number: " ++ key)) ∧
    (∀ v : JSValue, normalizeProp "boolean" v = .bool (jsToBool v)) ∧
    (∀ v : JSValue, normalizeProp "string" v = v) := by
  refine ⟨rfl, fun s => rfl, rfl, fun key req preq hdef => rfl, fun v => ?_, fun v => rfl⟩
  rfl

/-- C5 counterexample: registering two cleanup tasks and destroying runs them
in *reverse* registration order (`tasks.pop()` in a loop is LIFO), refuting
"in the order the tasks were registered". -/
theorem cleanup_order_counterexample :
    popRunAll (registerTask (registerTask ([] : List (CleanupTask Nat)) none 0) none 1) =
      [some 1, some 0] ∧
    ([some 1, some 0] : List (Option Nat)) ≠ [some 0, some 1] := by
  exact ⟨rfl, by decide⟩

/-- C5 (amended): destroying a controller runs every incomplete registered
task exactly once, in *reverse* registration order (LIFO), and every task is
idempotent: running an already-run task again does not invoke the underlying
method. -/
theorem cleanup_runs_once_lifo_spec {μ : Type} (tasks : List (CleanupTask μ))
    (h : ∀ t ∈ tasks, t.complete = false) :
    popRunAll tasks = tasks.reverse.map (fun t => some t.method) ∧
    (∀ t : CleanupTask μ, (runTask (runTask t).1).2 = none) := by
  constructor
  · unfold popRunAll
    exact runPopOrder_all_incomplete tasks.reverse
      (fun t ht => h t (List.mem_reverse.mp ht))
  · intro t
    unfold runTask
    by_cases hc : t.complete <;> simp [hc]

/-- C5 witness: two fresh tasks run once each, LIFO; re-running a task
invokes nothing. -/
theorem cleanup_runs_once_lifo_spec_witness :
    popRunAll [(⟨none, false, 7⟩ : CleanupTask Nat), ⟨some "close", false, 9⟩] =
      [some 9, some 7] ∧
    (runTask (runTask (⟨none, false, 7⟩ : CleanupTask Nat)).1).2 = none := by
  have h := cleanup_runs_once_lifo_spec
    [(⟨none, false, 7⟩ : CleanupTask Nat), ⟨some "close", false, 9⟩]
    (by intro t ht; simp at ht; rcases ht with h1 | h1 <;> simp [h1])
  exact ⟨h.1, h.2 ⟨none, false, 7⟩⟩

/-- C2 counterexample: a `fireAndForget` request *does* add an entry keyed by
its correlation hash to the response-listener table —
`addResponseListener(hash, responseListener)` runs before the
`fireAndForget` early return — refuting "no entry ... is ever added". -/
theorem fireAndForget_counterexample :
    getResponseListener
      (requestRegisterSlice [] "foo_123" ⟨"foo", .window 1, .str "https://x.example", false⟩
        true).responseListeners "foo_123" =
      some ⟨"foo", .window 1, .str "https://x.example", false⟩ := by
  rfl

/-- C2 (amended): a `fireAndForget` request registers its response-table
entry exactly like an ordinary request (keyed by the correlation hash,
before the frame is posted), but the returned promise is resolved
synchronously and the ACK/response deadline timers are never started;
without `fireAndForget` the promise stays pending and the timers start. -/
theorem fireAndForget_spec (l : ResponseListeners) (hash : String) (entry : ResponseListener) :
    getResponseListener ((requestRegisterSlice l hash entry true).responseListeners) hash =
      some entry ∧
    (requestRegisterSlice l hash entry true).resolvedImmediately = true ∧
    (requestRegisterSlice l hash entry true).timersStarted = false ∧
    (requestRegisterSlice l hash entry false).responseListeners =
      addResponseListener l hash entry ∧
    (requestRegisterSlice l hash entry false).resolvedImmediately = false ∧
    (requestRegisterSlice l hash entry false).timersStarted = true := by
  refine ⟨?_, rfl, rfl, rfl, rfl, rfl⟩
  unfold requestRegisterSlice getResponseListener addResponseListener
  simp [objGet_objSet]

/-- C3: when a RESPONSE frame arrives whose origin does not match the domain
pattern stored in the matching response-table entry, the handler throws and
the entry's `respond` continuation is never invoked (the entry is not even
removed); likewise an ACK from a mismatched origin throws and the entry is
not marked acknowledged. -/
theorem response_origin_mismatch_spec {δ : Type} (l : ResponseListeners) (origin : String)
    (hash messageName : String) (options : ResponseListener) (ack : Option AckStatus)
    (errmsg : String) (data : Option δ)
    (hfound : getResponseListener l hash = some options)
    (hmismatch : matchDomain options.domain (.str origin) = false) :
    receiveResponse l origin hash messageName ack errmsg data =
      (.error ("Response origin " ++ origin ++ " does not match domain") :
        Except String (ResponseListeners × Option (RespondAction δ))) ∧
    receiveAck l origin hash messageName =
      .error ("Ack origin " ++ origin ++ " does not match domain") := by
  constructor
  · unfold receiveResponse
    rw [hfound]
    simp [hmismatch]
  · unfold receiveAck
    rw [hfound]
    simp [hmismatch]

/-- C3 witness: a pending entry whose stored pattern is
`https://good.example` rejects a RESPONSE and an ACK arriving from
`https://evil.example`. -/
theorem response_origin_mismatch_spec_witness :
    getResponseListener [("h1", ⟨"init", .window 2, .str "https://good.example", false⟩)] "h1" =
      some ⟨"init", .window 2, .str "https://good.example", false⟩ ∧
    matchDomain (DomainPattern.str "https://good.example") (.str "https://evil.example") =
      false ∧
    receiveResponse (δ := Nat)
      [("h1", ⟨"init", .window 2, .str "https://good.example", false⟩)]
      "https://evil.example" "h1" "init" (some .success) "" (some 5) =
      .error ("Response origin " ++ "https://evil.example" ++ " does not match domain") := by
  refine ⟨rfl, by simp [WILDCARD], ?_⟩
  exact (response_origin_mismatch_spec (δ := Nat)
    [("h1", ⟨"init", .window 2, .str "https://good.example", false⟩)]
    "https://evil.example" "h1" "init"
    ⟨"init", .window 2, .str "https://good.example", false⟩
    (some .success) "" (some 5) rfl (by simp [WILDCARD])).1

/-- C1: serializing a function `f` yields the METHOD marker
`{__type__, __id__, __name__}` and records `(domain, f)` under the generated
id in the per-peer method table; invoking the deserialized stub with `args`
from an origin matching that domain settles exactly as `await f(args)` does
on the sender — the METHOD response's `data.result` on success, and the
sender's thrown error as a rejection. -/
theorem method_handle_roundtrip_spec {α β : Type} (methods : MethodTable α β) (id : String)
    (domain : DomainPattern) (f : α → Except String β) (name : String) (origin : String)
    (args : α) (hmatch : matchDomain domain (.str origin) = true) :
    (serializeMethod methods id domain f name).1 = ⟨SERIALIZE_METHOD, id, name⟩ ∧
    objGet (serializeMethod methods id domain f name).2 id = some ⟨domain, f⟩ ∧
    invokeDeserializedMethod (serializeMethod methods id domain f name).2 origin
      (serializeMethod methods id domain f name).1 args = f args := by
  refine ⟨rfl, objGet_objSet methods id ⟨domain, f⟩, ?_⟩
  unfold invokeDeserializedMethod methodMessageHandler serializeMethod
  simp only [objGet_objSet, hmatch, Bool.not_true, Bool.false_eq_true, if_false]
  cases f args <;> rfl

/-- C1 witness: the round trip at `f = fun n => n * 2`, `args = 21`, a
matching origin, and a throwing sender function. -/
theorem method_handle_roundtrip_spec_witness :
    invokeDeserializedMethod
      (serializeMethod ([] : MethodTable Nat Nat) "m1" (.str "https://child.example")
        (fun n => .ok (n * 2)) "onSubmit").2
      "https://child.example"
      (serializeMethod ([] : MethodTable Nat Nat) "m1" (.str "https://child.example")
        (fun n => .ok (n * 2)) "onSubmit").1 21 = .ok 42 ∧
    invokeDeserializedMethod
      (serializeMethod ([] : MethodTable Nat Nat) "m2" (.str "https://child.example")
        (fun _ => .error "boom") "onSubmit").2
      "https://child.example"
      (serializeMethod ([] : MethodTable Nat Nat) "m2" (.str "https://child.example")
        (fun _ => .error "boom") "onSubmit").1 21 = .error "boom" := by
  constructor
  · exact (method_handle_roundtrip_spec [] "m1" (.str "https://child.example")
      (fun n => .ok (n * 2)) "onSubmit" "https://child.example" 21 (by simp)).2.2
  · exact (method_handle_roundtrip_spec [] "m2" (.str "https://child.example")
      (fun _ => .error "boom") "onSubmit" "https://child.example" 21 (by simp)).2.2

/-- C10: `buildChildWindowName` throws (producing no window name) whenever
the name — after stripping non-alphanumerics from the edges and collapsing
interior runs — is empty, and likewise for the version; every window name it
does return has the normalized (hence non-empty) name and version as its
second and third `__`-separated segments. -/
theorem buildChildWindowName_empty_spec (codec : PayloadCodec) (name version : String)
    (options : List (String × String)) (newId curDomain : String) :
    (normalize name = "" →
      buildChildWindowName codec name version options newId curDomain =
        .error ("Invalid name: " ++ name ++ " - must contain alphanumeric characters")) ∧
    (normalize name ≠ "" → normalize version = "" →
      buildChildWindowName codec name version options newId curDomain =
        .error ("Invalid version: " ++ version ++ " - must contain alphanumeric characters")) ∧
    (∀ wn : String, buildChildWindowName codec name version options newId curDomain = .ok wn →
      normalize name ≠ "" ∧ normalize version ≠ "" ∧
      wn = String.intercalate "__"
        [XCOMPONENT, normalize name, normalize version, codec.enc ⟨newId, curDomain, options⟩]) := by
  refine ⟨?_, ?_, ?_⟩
  · intro h
    unfold buildChildWindowName
    simp [h]
  · intro hn hv
    unfold buildChildWindowName
    simp [hn, hv]
  · intro wn hok
    unfold buildChildWindowName at hok
    by_cases hn : normalize name = ""
    · simp [hn] at hok
    · by_cases hv : normalize version = ""
      · simp [hn, hv] at hok
      · simp only [hn, hv, if_false] at hok
        refine ⟨hn, hv, ?_⟩
        cases hok
        rfl

/-- C10 witness: a name of only dashes fails; a valid pair yields the
four-segment window name. -/
theorem buildChildWindowName_empty_spec_witness :
    normalize "---" = "" ∧
    buildChildWindowName specCodec "---" "1.0" [] "id1" "https://a.example" =
      .error ("Invalid name: " ++ "---" ++ " - must contain alphanumeric characters") := by
  refine ⟨rfl, ?_⟩
  exact (buildChildWindowName_empty_spec specCodec "---" "1.0" [] "id1" "https://a.example").1 rfl

/-- C4 counterexample: the codec round trip does *not* restore the name
`my-comp`: `normalize` replaces the dash with `_` when encoding, and decoding
restores `_` to `.` only in the *version* segment, so the decoded descriptor
carries `name = "my_comp"`, not `"my-comp"`. -/
theorem childWindowName_roundtrip_counterexample :
    (match buildChildWindowName specCodec "my-comp" "1.0" [] "i" "d" with
     | .ok wn => (getComponentMeta specCodec wn).map (fun m => m.name)
     | .error _ => none) = some "my_comp" ∧
    some "my_comp" ≠ some "my-comp" := by
  exact ⟨rfl, by decide⟩

/-- C4 (amended): for any payload codec whose encoded payload decodes back
(after the uppercasing of `getComponentMeta`) and contains no underscore,
`buildChildWindowName('my-comp', '1.0', opts)` round-trips through
`getComponentMeta` to the descriptor `opts` extended with the generated id
and domain — but with `name` equal to the *normalized* `"my_comp"` (not
`"my-comp"`), and `version` equal to `"1.0"`. -/
theorem childWindowName_roundtrip_spec (codec : PayloadCodec) (options : List (String × String))
    (newId curDomain : String)
    (hdec : codec.dec (jsToUpperCase (codec.enc ⟨newId, curDomain, options⟩)) =
      some ⟨newId, curDomain, options⟩)
    (hund : ∀ c ∈ (codec.enc ⟨newId, curDomain, options⟩).toList, c ≠ '_') :
    ∃ wn : String,
      buildChildWindowName codec "my-comp" "1.0" options newId curDomain = .ok wn ∧
      getComponentMeta codec wn = some ⟨⟨newId, curDomain, options⟩, "my_comp", "1.0"⟩ := by
  refine ⟨String.intercalate "__"
    [XCOMPONENT, "my_comp", "1_0", codec.enc ⟨newId, curDomain, options⟩], rfl, ?_⟩
  have hwl : (String.intercalate "__"
      [XCOMPONENT, "my_comp", "1_0", codec.enc ⟨newId, curDomain, options⟩]).toList =
      "xcomponent".toList ++ '_' :: '_' :: ("my_comp".toList ++ '_' :: '_' ::
        ("1_0".toList ++ '_' :: '_' :: (codec.enc ⟨newId, curDomain, options⟩).toList)) := rfl
  have g1 : goodPiece "xcomponent".toList = true := by decide
  have g2 : goodPiece "my_comp".toList = true := by decide
  have g3 : goodPiece "1_0".toList = true := by decide
  have hnd : noDoubleUnderscore (codec.enc ⟨newId, curDomain, options⟩).toList = true :=
    noDoubleUnderscore_of_no_underscore _ hund
  have hsplit : splitDU (String.intercalate "__"
      [XCOMPONENT, "my_comp", "1_0", codec.enc ⟨newId, curDomain, options⟩]).toList =
      ["xcomponent".toList, "my_comp".toList, "1_0".toList,
        (codec.enc ⟨newId, curDomain, options⟩).toList] := by
    rw [hwl, splitDU_append_sep _ _ g1, splitDU_append_sep _ _ g2, splitDU_append_sep _ _ g3,
      splitDU_no_double _ hnd]
  have hne : String.intercalate "__"
      [XCOMPONENT, "my_comp", "1_0", codec.enc ⟨newId, curDomain, options⟩] ≠ "" := by
    intro hemp
    have htl : (String.intercalate "__"
        [XCOMPONENT, "my_comp", "1_0", codec.enc ⟨newId, curDomain, options⟩]).toList = [] := by
      rw [hemp]
      rfl
    rw [hwl] at htl
    simp at htl
  unfold getComponentMeta jsSplitDoubleUnderscore
  rw [if_neg hne, hsplit]
  simp only [List.map]
  simp only [string_mk_toList]
  simp only [XCOMPONENT, ne_eq, not_true_eq_false, if_false]
  rw [hdec]
  rfl

/-- C4 witness: the concrete modelled codec satisfies the round-trip and
no-underscore hypotheses, and the round trip at `opts = []`, id `"i"`,
domain `"d"` decodes to name `"my_comp"` and version `"1.0"`. -/
theorem childWindowName_roundtrip_spec_witness :
    specCodec.dec (jsToUpperCase (specCodec.enc ⟨"i", "d", []⟩)) = some ⟨"i", "d", []⟩ ∧
    (∀ c ∈ (specCodec.enc ⟨"i", "d", []⟩).toList, c ≠ '_') ∧
    ∃ wn : String,
      buildChildWindowName specCodec "my-comp" "1.0" [] "i" "d" = .ok wn ∧
      getComponentMeta specCodec wn = some ⟨⟨"i", "d", []⟩, "my_comp", "1.0"⟩ := by
  refine ⟨rfl, by decide, ?_⟩
  exact childWindowName_roundtrip_spec specCodec [] "i" "d" rfl (by decide)

/-- C6 counterexample: registering a listener for name `"foo"` on the empty
table and immediately cancelling it does not restore the table to exactly its
pre-registration state: the cancel closure never deletes
`requestListeners[name]`, so an empty shell entry for `"foo"` survives and
the name remains a key of the table. -/
theorem listener_register_cancel_counterexample :
    (match addRequestListener [] "foo" (some (WinKey.window 1))
        (some (.str "https://x.example")) 7 with
     | .ok (rl1, ctx) => (objGet (cancelRequestListener rl1 ctx) "foo").isSome
     | .error _ => false) = true ∧
    (objGet ([] : RequestListeners) "foo").isSome = false := ⟨rfl, rfl⟩

/-- C6 (amended): a successful `addRequestListener` for a scalar window and a
scalar domain followed by its returned `cancel` closure restores the listener
table up to lookup equivalence: every `getRequestListener` query whose domain
does not print as the internal `"__domain_regex__"` bucket key receives
exactly the same answer as on the pre-registration table. (Exact structural
restoration fails — see the counterexample; the registered name's window map
is assumed to have unique keys, as the source's `WeakMap` guarantees.) -/
theorem listener_register_cancel_spec (rl : RequestListeners) (name : String)
    (win : Option WinKey) (domain : Option ScalarDomain) (listenerId : Nat)
    (rl1 : RequestListeners) (ctx : CancelCtx)
    (hnodup : ∀ nl, objGet rl name = some nl → (nl.map Prod.fst).Nodup)
    (hreg : addRequestListener rl name win domain listenerId = .ok (rl1, ctx)) :
    ∀ (qname : String) (qwin : Option WinKey) (qdomain : Option ScalarDomain),
      queryDomainOk qdomain →
      getRequestListener (cancelRequestListener rl1 ctx) qname qwin qdomain =
        getRequestListener rl qname qwin qdomain := by
  intro qname qwin qdomain hq
  unfold addRequestListener at hreg
  by_cases hname : name = ""
  · rw [if_pos hname] at hreg
    exact absurd hreg (by simp)
  rw [if_neg hname] at hreg
  cases hex : getRequestListener rl name win domain with
  | some v =>
    rw [hex] at hreg
    exact absurd (show (Except.error ("Request listener already exists for " ++ name) :
      Except String (RequestListeners × CancelCtx)) = Except.ok (rl1, ctx) from hreg)
      (by simp)
  | none =>
    rw [hex] at hreg
    set winKey := (match win with
      | none => WinKey.windowWildcard
      | some w => w) with hwk
    have hreg2 : registerListener rl name winKey (domain.getD (ScalarDomain.str WILDCARD))
        listenerId = Except.ok (rl1, ctx) := hreg
    have hnd0 : (((objGet rl name).getD ([] : NameListeners)).map Prod.fst).Nodup := by
      cases hnl : objGet rl name with
      | none => simp
      | some nlv => exact hnodup nlv hnl
    cases hdom : domain.getD (ScalarDomain.str WILDCARD) with
    | str s =>
      rw [hdom] at hreg2
      have hreg3 : (Except.ok (objSet rl name (objSet ((objGet rl name).getD []) winKey
          (objSet ((objGet ((objGet rl name).getD []) winKey).getD []) s
            (WinVal.listener listenerId))),
          (⟨name, winKey, s, none⟩ : CancelCtx)) :
          Except String (RequestListeners × CancelCtx)) = .ok (rl1, ctx) := hreg2
      injection hreg3 with hpair
      rw [Prod.mk.injEq] at hpair
      obtain ⟨hrl1, hctx⟩ := hpair
      subst hrl1
      subst hctx
      have hKey : objGet ((objGet ((objGet rl name).getD []) winKey).getD []) s = none ∨
          s = "" := by
        by_cases hs0 : s = ""
        · exact Or.inr hs0
        left
        cases hnl : objGet rl name with
        | none => rfl
        | some nlv =>
          show objGet ((objGet nlv winKey).getD []) s = none
          cases hw : objGet nlv winKey with
          | none => rfl
          | some wlv =>
            show objGet wlv s = none
            have hsw := existing_none_search rl name win domain nlv hnl winKey hwk wlv hw hex
            cases domain with
            | none =>
              have hsW : s = WILDCARD := by
                have h2 : ScalarDomain.str WILDCARD = ScalarDomain.str s := hdom
                injection h2 with h3
                exact h3.symm
              rw [hsW]
              exact swl_none_wildcard wlv (normalizeQueryDomain none) hsw
            | some d =>
              have hd : d = ScalarDomain.str s := hdom
              subst hd
              by_cases hsW : s = WILDCARD
              · rw [hsW]
                exact swl_none_wildcard wlv
                  (normalizeQueryDomain (some (ScalarDomain.str s))) hsw
              · have hnq : normalizeQueryDomain (some (ScalarDomain.str s)) =
                    some (ScalarDomain.str s) := by
                  simp [normalizeQueryDomain, hsW]
                rw [hnq] at hsw
                exact swl_none_literal wlv (.str s) hsw hs0
      obtain ⟨nlF, hcf, hlnl⟩ := cancel_after_register_str rl name winKey s listenerId
        ((objGet rl name).getD []) ((objGet ((objGet rl name).getD []) winKey).getD [])
        rfl rfl hnd0 hKey
      rw [hcf]
      exact getRL_objSet_equiv rl name ((objGet rl name).getD []) nlF rfl hlnl
        qname qwin qdomain hq
    | regex src test =>
      rw [hdom] at hreg2
      have hreg3 : (match objGet (objSet ((objGet ((objGet rl name).getD []) winKey).getD [])
            src (WinVal.listener listenerId)) DOMAIN_REGEX_KEY with
          | some (WinVal.listener _) =>
            (Except.error "TypeError: regexListeners.push is not a function" :
              Except String (RequestListeners × CancelCtx))
          | some (WinVal.regexList l) =>
            Except.ok (objSet rl name (objSet ((objGet rl name).getD []) winKey
                (objSet (objSet ((objGet ((objGet rl name).getD []) winKey).getD []) src
                  (WinVal.listener listenerId)) DOMAIN_REGEX_KEY
                  (WinVal.regexList (l ++ [(⟨src, test, listenerId⟩ : RegexEntry)])))),
              (⟨name, winKey, src, some (⟨src, test, listenerId⟩ : RegexEntry)⟩ : CancelCtx))
          | none =>
            Except.ok (objSet rl name (objSet ((objGet rl name).getD []) winKey
                (objSet (objSet ((objGet ((objGet rl name).getD []) winKey).getD []) src
                  (WinVal.listener listenerId)) DOMAIN_REGEX_KEY
                  (WinVal.regexList [(⟨src, test, listenerId⟩ : RegexEntry)]))),
              (⟨name, winKey, src, some (⟨src, test, listenerId⟩ : RegexEntry)⟩ : CancelCtx)))
          = .ok (rl1, ctx) := hreg2
      have hdm : domain = some (ScalarDomain.regex src test) := by
        cases domain with
        | none =>
          exact absurd (show ScalarDomain.str WILDCARD = ScalarDomain.regex src test
            from hdom) (by simp)
        | some d =>
          have hd : d = ScalarDomain.regex src test := hdom
          rw [hd]
      cases hDRK1 : objGet (objSet ((objGet ((objGet rl name).getD []) winKey).getD []) src
          (WinVal.listener listenerId)) DOMAIN_REGEX_KEY with
      | none =>
        rw [hDRK1] at hreg3
        have hreg4 : (Except.ok (objSet rl name (objSet ((objGet rl name).getD []) winKey
            (objSet (objSet ((objGet ((objGet rl name).getD []) winKey).getD []) src
              (WinVal.listener listenerId)) DOMAIN_REGEX_KEY
              (WinVal.regexList [(⟨src, test, listenerId⟩ : RegexEntry)]))),
            (⟨name, winKey, src, some (⟨src, test, listenerId⟩ : RegexEntry)⟩ : CancelCtx)) :
            Except String (RequestListeners × CancelCtx)) = .ok (rl1, ctx) := hreg3
        injection hreg4 with hpair
        rw [Prod.mk.injEq] at hpair
        obtain ⟨hrl1, hctx⟩ := hpair
        subst hrl1
        subst hctx
        have hKey : objGet ((objGet ((objGet rl name).getD []) winKey).getD []) src = none ∨
            src = "" := by
          by_cases hs0 : src = ""
          · exact Or.inr hs0
          left
          cases hnl : objGet rl name with
          | none => rfl
          | some nlv =>
            show objGet ((objGet nlv winKey).getD []) src = none
            cases hw : objGet nlv winKey with
            | none => rfl
            | some wlv =>
              show objGet wlv src = none
              have hsw := existing_none_search rl name win domain nlv hnl winKey hwk
                wlv hw hex
              rw [hdm] at hsw
              have hsw2 : searchWinListeners wlv (some (ScalarDomain.regex src test)) =
                  none := hsw
              exact swl_none_literal wlv (.regex src test) hsw2 hs0
        obtain ⟨nlF, hcf, hlnl⟩ := cancel_after_register_regex_fresh rl name winKey src test
          listenerId ((objGet rl name).getD [])
          ((objGet ((objGet rl name).getD []) winKey).getD []) rfl rfl hDRK1 hKey
        rw [hcf]
        exact getRL_objSet_equiv rl name ((objGet rl name).getD []) nlF rfl hlnl
          qname qwin qdomain hq
      | some wv =>
        rw [hDRK1] at hreg3
        cases wv with
        | listener i =>
          exact absurd (show (Except.error
            "TypeError: regexListeners.push is not a function" :
            Except String (RequestListeners × CancelCtx)) = Except.ok (rl1, ctx) from hreg3)
            (by simp)
        | regexList l0 =>
          have hreg4 : (Except.ok (objSet rl name (objSet ((objGet rl name).getD []) winKey
              (objSet (objSet ((objGet ((objGet rl name).getD []) winKey).getD []) src
                (WinVal.listener listenerId)) DOMAIN_REGEX_KEY
                (WinVal.regexList (l0 ++ [(⟨src, test, listenerId⟩ : RegexEntry)])))),
              (⟨name, winKey, src, some (⟨src, test, listenerId⟩ : RegexEntry)⟩ : CancelCtx)) :
              Except String (RequestListeners × CancelCtx)) = .ok (rl1, ctx) := hreg3
          injection hreg4 with hpair
          rw [Prod.mk.injEq] at hpair
          obtain ⟨hrl1, hctx⟩ := hpair
          subst hrl1
          subst hctx
          have hsrcD : src ≠ DOMAIN_REGEX_KEY := by
            intro h
            rw [h, objGet_objSet ((objGet ((objGet rl name).getD []) winKey).getD [])
              DOMAIN_REGEX_KEY (WinVal.listener listenerId)] at hDRK1
            exact absurd hDRK1 (by simp)
          have hDRK0 : objGet ((objGet ((objGet rl name).getD []) winKey).getD [])
              DOMAIN_REGEX_KEY = some (WinVal.regexList l0) := by
            rw [← objGet_objSet_ne ((objGet ((objGet rl name).getD []) winKey).getD []) src
              DOMAIN_REGEX_KEY (WinVal.listener listenerId) hsrcD]
            exact hDRK1
          have hwl0ne : ((objGet ((objGet rl name).getD []) winKey).getD []) ≠
              ([] : WinListeners) :=
            objGet_some_ne_nil ((objGet ((objGet rl name).getD []) winKey).getD [])
              DOMAIN_REGEX_KEY (WinVal.regexList l0) hDRK0
          have hfacts : (∀ e2 ∈ l0, (e2.source == src) = false) ∧
              (objGet ((objGet ((objGet rl name).getD []) winKey).getD []) src = none ∨
                src = "") := by
            cases hnl : objGet rl name with
            | none =>
              exact absurd (by rw [hnl]; rfl :
                ((objGet ((objGet rl name).getD []) winKey).getD []) = ([] : WinListeners))
                hwl0ne
            | some nlv =>
              cases hw : objGet nlv winKey with
              | none =>
                refine absurd ?_ hwl0ne
                rw [hnl]
                show ((objGet nlv winKey).getD []) = ([] : WinListeners)
                rw [hw]
                rfl
              | some wlv =>
                have hwlv : ((objGet ((objGet rl name).getD []) winKey).getD []) = wlv := by
                  rw [hnl]
                  show ((objGet nlv winKey).getD []) = wlv
                  rw [hw]
                  rfl
                have hsw := existing_none_search rl name win domain nlv hnl winKey hwk
                  wlv hw hex
                rw [hdm] at hsw
                have hsw2 : searchWinListeners wlv (some (ScalarDomain.regex src test)) =
                    none := hsw
                have hDRK0v : objGet wlv DOMAIN_REGEX_KEY = some (WinVal.regexList l0) := by
                  rw [← hwlv]
                  exact hDRK0
                refine ⟨swl_none_bucket wlv src test hsw2 l0 hDRK0v, ?_⟩
                by_cases hs0 : src = ""
                · exact Or.inr hs0
                · left
                  show objGet ((objGet nlv winKey).getD []) src = none
                  rw [hw]
                  exact swl_none_literal wlv (.regex src test) hsw2 hs0
          obtain ⟨hfreshSrc, hKey⟩ := hfacts
          obtain ⟨nlF, hcf, hlnl⟩ := cancel_after_register_regex_found rl name winKey src
            test listenerId ((objGet rl name).getD [])
            ((objGet ((objGet rl name).getD []) winKey).getD []) l0 rfl rfl hDRK1 hKey
            hfreshSrc
          rw [hcf]
          exact getRL_objSet_equiv rl name ((objGet rl name).getD []) nlF rfl hlnl
            qname qwin qdomain hq

/-- C6 witness: a concrete regex-domain registration on the empty table,
whose cancellation leaves `getRequestListener` unchanged for a concrete
query. -/
theorem listener_register_cancel_spec_witness :
    addRequestListener [] "foo" (some (WinKey.window 1))
        (some (.regex "^https:" httpsTest)) 7 =
      .ok ([("foo", [(WinKey.window 1,
            [("^https:", WinVal.listener 7),
             (DOMAIN_REGEX_KEY,
              WinVal.regexList [(⟨"^https:", httpsTest, 7⟩ : RegexEntry)])])])],
          ⟨"foo", WinKey.window 1, "^https:",
            some (⟨"^https:", httpsTest, 7⟩ : RegexEntry)⟩) ∧
    getRequestListener
        (cancelRequestListener
          [("foo", [(WinKey.window 1,
            [("^https:", WinVal.listener 7),
             (DOMAIN_REGEX_KEY,
              WinVal.regexList [(⟨"^https:", httpsTest, 7⟩ : RegexEntry)])])])]
          ⟨"foo", WinKey.window 1, "^https:",
            some (⟨"^https:", httpsTest, 7⟩ : RegexEntry)⟩)
        "foo" (some (WinKey.window 1)) (some (.str "https://a.example")) =
      getRequestListener [] "foo" (some (WinKey.window 1))
        (some (.str "https://a.example")) := by
  refine ⟨rfl, ?_⟩
  exact listener_register_cancel_spec [] "foo" (some (WinKey.window 1))
    (some (.regex "^https:" httpsTest)) 7
    [("foo", [(WinKey.window 1,
        [("^https:", WinVal.listener 7),
         (DOMAIN_REGEX_KEY, WinVal.regexList [(⟨"^https:", httpsTest, 7⟩ : RegexEntry)])])])]
    ⟨"foo", WinKey.window 1, "^https:", some (⟨"^https:", httpsTest, 7⟩ : RegexEntry)⟩
    (fun nl h => by simp [objGet] at h) rfl
    "foo" (some (WinKey.window 1)) (some (.str "https://a.example"))
    (fun d hd => by injection hd with hd2; rw [← hd2]; decide)


end XComp
